import Mathlib

/-!
Verification of the update-engine core (download / filesystem-verify pipeline).

This file gives a shallow embedding of three source files of the repository:

* `install_plan.cc`               — the `InstallPlan` / `Partition` data model
  and its equality operators;
* `filesystem_verifier_action.cc` — the asynchronous partition-hashing action;
* `download_action.cc`            — the payload download action with its
  optional P2P share-file mirror.

Machine integers that are byte counts (`uint64_t` sizes, `size_t` lengths,
non-negative `off_t` offsets) are modelled as `Nat`; negative `off_t` error
returns are modelled as `Option Nat = none`.  Byte buffers and raw hashes are
`List Nat`.  External collaborators (boot control, file streams, the hash
library, the P2P manager, the delta performer) are modelled as explicit
environment records of pure functions, and each embedded method returns the
successor state together with the list of externally observable events it
produced (device opens, completions delivered to the processor, P2P file
operations, and so on).
-/

namespace UpdateEngine

/-- The subset of the flat `ErrorCode` enumeration used by the three source
files (plus representative applier-produced codes). -/
inductive ErrorCode where
  | kSuccess
  | kError
  | kDownloadTransferError
  | kFilesystemVerifierError
  | kNewRootfsVerificationError
  | kPayloadHashMismatchError
  | kPayloadSizeMismatchError
  | kSignedDeltaPayloadExpectedError
  | kDownloadOperationExecutionError
  deriving DecidableEq, Repr

/-- `BootControlInterface::kInvalidSlot` (the all-ones 32-bit slot value). -/
def kInvalidSlot : Nat := 4294967295

/-- One `InstallPlan::Partition` record.  Field defaults follow the in-class
initializers referenced by `install_plan.cc` (zero sizes, empty paths and
hashes). -/
structure Partition where
  name : String := ""
  source_path : String := ""
  source_size : Nat := 0
  source_hash : List Nat := []
  target_path : String := ""
  target_size : Nat := 0
  target_hash : List Nat := []
  run_postinstall : Bool := false
  deriving DecidableEq, Repr

instance : Inhabited Partition := ⟨{}⟩

/-- `InstallPlan::Partition::operator==` (install_plan.cc lines 112–122):
all eight fields are compared. -/
def Partition.eqOp (a b : Partition) : Bool :=
  a.name == b.name &&
  a.source_path == b.source_path &&
  a.source_size == b.source_size &&
  a.source_hash == b.source_hash &&
  a.target_path == b.target_path &&
  a.target_size == b.target_size &&
  a.target_hash == b.target_hash &&
  a.run_postinstall == b.run_postinstall

/-- Element-wise equality of two partition vectors, as `std::vector`'s
`operator==` instantiates `Partition::operator==`. -/
def partitionsEq : List Partition → List Partition → Bool
  | [], [] => true
  | p :: ps, q :: qs => p.eqOp q && partitionsEq ps qs
  | _, _ => false

/-- The `InstallPlan` record, with the fields and defaults visible in
`install_plan.cc` (constructor lines 30–47 and `Dump`). -/
structure InstallPlan where
  is_resume : Bool := false
  is_full_update : Bool := false
  download_url : String := ""
  payload_size : Nat := 0
  payload_hash : String := ""
  metadata_size : Nat := 0
  metadata_signature : String := ""
  source_slot : Nat := kInvalidSlot
  target_slot : Nat := kInvalidSlot
  hash_checks_mandatory : Bool := false
  powerwash_required : Bool := false
  public_key_rsa : String := ""
  partitions : List Partition := []
  deriving DecidableEq, Repr

/-- `InstallPlan::operator==` (install_plan.cc lines 50–61).  Note that
`hash_checks_mandatory`, `powerwash_required` and `public_key_rsa` are not
among the compared fields. -/
def InstallPlan.eqOp (a b : InstallPlan) : Bool :=
  a.is_resume == b.is_resume &&
  a.is_full_update == b.is_full_update &&
  a.download_url == b.download_url &&
  a.payload_size == b.payload_size &&
  a.payload_hash == b.payload_hash &&
  a.metadata_size == b.metadata_size &&
  a.metadata_signature == b.metadata_signature &&
  a.source_slot == b.source_slot &&
  a.target_slot == b.target_slot &&
  partitionsEq a.partitions b.partitions

/-- `InstallPlan::operator!=` (install_plan.cc lines 63–65). -/
def InstallPlan.neOp (a b : InstallPlan) : Bool :=
  !(a.eqOp b)

/-! ## FilesystemVerifierAction (filesystem_verifier_action.cc) -/

/-- The fixed read buffer size (filesystem_verifier_action.cc line 40). -/
def kReadFileBufferSize : Nat := 128 * 1024

/-- Modelled from the spec: the constants `kLegacyPartitionNameRoot` and
`kLegacyPartitionNameKernel` live in `payload_constants`, which is not part
of the excerpt; the spec names the two synthesized legacy partitions "root"
and "kernel". -/
def kLegacyPartitionNameRoot : String := "root"

/-- Modelled from the spec: the legacy kernel partition name (see
`kLegacyPartitionNameRoot`). -/
def kLegacyPartitionNameKernel : String := "kernel"

/-- The `VerifierMode` enumeration selecting the action's behavior. -/
inductive VerifierMode where
  | kComputeSourceHash
  | kVerifyTargetHash
  deriving DecidableEq, Repr

/-- Externally observable effects of the verifier action: opening a partition
device for reading, setting the output pipe object, and delivering a
completion to the `ActionProcessor`. -/
inductive FsvEvent where
  | openDevice (path : String)
  | setOutput
  | actionComplete (code : ErrorCode)
  deriving DecidableEq, Repr

/-- The verifier's external collaborators, as pure functions:

* `getPartitionDevice name slot` — `BootControlInterface::GetPartitionDevice`;
  `none` models a `false` return (the out-parameter is then left empty).
* `deviceContent path` — the bytes of the block device backing `path`; an
  asynchronous read of `n` bytes at stream position `pos` returns
  `min n (length - pos)` bytes, so a read at or past the end returns zero
  bytes.
* `openOk path` — whether `chromeos::FileStream::Open` succeeds.
* `readAsyncOk pos` — whether `ReadAsync` can be scheduled at position `pos`.
* `hashUpdateOk data` — whether `OmahaHashCalculator::Update` succeeds, given
  all bytes fed so far (including the current chunk).
* `hashFinalizeOk data` / `hashFn data` — `Finalize` success and the value of
  `raw_hash()` over the accumulated bytes.
* `getFilesystemSize path` — `utils::GetFilesystemSize`, returning
  `(block_count, block_size)` on success.
* `fileSize path` — `utils::FileSize`; `none` models a negative return. -/
structure FsvEnv where
  getPartitionDevice : String → Nat → Option String
  deviceContent : String → List Nat
  openOk : String → Bool
  readAsyncOk : Nat → Bool
  hashUpdateOk : List Nat → Bool
  hashFinalizeOk : List Nat → Bool
  hashFn : List Nat → List Nat
  getFilesystemSize : String → Option (Nat × Nat)
  fileSize : String → Option Nat

/-- `FilesystemVerifierAction::Cleanup` (lines 113–123): the stream and buffer
are released; when `cancelled_` is set the method returns before reaching
`ActionComplete`, so no completion (and no output object) is delivered. -/
def cleanupEvents (cancelled hasOutputPipe : Bool) (code : ErrorCode) :
    List FsvEvent :=
  if cancelled then []
  else
    (if code = ErrorCode.kSuccess ∧ hasOutputPipe then [FsvEvent.setOutput]
     else []) ++ [FsvEvent.actionComplete code]

/-- `FilesystemVerifierAction::TerminateProcessing` (lines 104–107): set
`cancelled_` and run `Cleanup(kSuccess)` (whose code is ignored because
`cancelled_` now holds). -/
def terminateProcessingEvents (hasOutputPipe : Bool) : List FsvEvent :=
  cleanupEvents true hasOutputPipe ErrorCode.kSuccess

/-- What a single `OnReadDoneCallback` invocation does after updating its
state: schedule another read, fall through to `FinishPartitionHashing`, or
stop (having run `Cleanup` with the given code). -/
inductive CbNext where
  | scheduleRead
  | finishPartition
  | terminated (code : ErrorCode)
  deriving DecidableEq, Repr

/-- The state left behind by a single `OnReadDoneCallback` invocation. -/
structure CbOut where
  readDone : Bool
  remaining : Nat
  data : List Nat
  events : List FsvEvent
  next : CbNext
  deriving Repr

/-- One invocation of `FilesystemVerifierAction::OnReadDoneCallback`
(lines 194–221), for a delivered chunk of `chunk.length` bytes.  `data` is
the byte sequence fed to the hasher so far; the `CHECK(!read_done_)`
assertion is not modelled (it aborts the process). -/
def onReadDoneCallback (env : FsvEnv) (cancelled hasPipe readDone : Bool)
    (remaining : Nat) (data chunk : List Nat) : CbOut :=
  if chunk.length = 0 then
    -- bytes_read == 0: mark the stream exhausted.
    if cancelled then
      ⟨true, remaining, data, cleanupEvents true hasPipe ErrorCode.kError,
        CbNext.terminated ErrorCode.kError⟩
    else if remaining ≠ 0 then
      ⟨true, remaining, data,
        cleanupEvents false hasPipe ErrorCode.kFilesystemVerifierError,
        CbNext.terminated ErrorCode.kFilesystemVerifierError⟩
    else
      ⟨true, remaining, data, [], CbNext.finishPartition⟩
  else
    let remaining' := remaining - chunk.length
    let data' := data ++ chunk
    if !env.hashUpdateOk data' then
      ⟨readDone, remaining', data, cleanupEvents cancelled hasPipe ErrorCode.kError,
        CbNext.terminated ErrorCode.kError⟩
    else if cancelled then
      ⟨readDone, remaining', data', cleanupEvents true hasPipe ErrorCode.kError,
        CbNext.terminated ErrorCode.kError⟩
    else if readDone ∨ remaining' = 0 then
      if remaining' ≠ 0 then
        ⟨readDone, remaining', data',
          cleanupEvents false hasPipe ErrorCode.kFilesystemVerifierError,
          CbNext.terminated ErrorCode.kFilesystemVerifierError⟩
      else
        ⟨readDone, remaining', data', [], CbNext.finishPartition⟩
    else
      ⟨readDone, remaining', data', [], CbNext.scheduleRead⟩

/-- Result of iterating `ScheduleRead` / `OnReadDoneCallback` over one
partition: control reaches `FinishPartitionHashing` with the accumulated
bytes, or `Cleanup(code)` fired inside the loop. -/
inductive ReadLoopResult where
  | finished (data : List Nat) (pos : Nat)
  | completed (code : ErrorCode) (events : List FsvEvent)
  | outOfFuel
  deriving Repr

/-- The `ScheduleRead` (lines 171–192) / `OnReadDoneCallback` loop over one
partition in the uncancelled case.  `pos` is the stream position, `remaining`
the bytes still expected, `data` the bytes fed to the hasher so far.  The
fuel only bounds iteration; `remaining < fuel` always suffices. -/
def readLoop (env : FsvEnv) (hasPipe : Bool) (dev : List Nat) :
    Nat → Nat → Nat → List Nat → ReadLoopResult
  | 0, _, _, _ => ReadLoopResult.outOfFuel
  | fuel + 1, pos, remaining, data =>
    let bytesToRead := min kReadFileBufferSize remaining
    let chunk := (dev.drop pos).take (min bytesToRead (dev.length - pos))
    if bytesToRead ≠ 0 ∧ !env.readAsyncOk pos then
      ReadLoopResult.completed ErrorCode.kError
        (cleanupEvents false hasPipe ErrorCode.kError)
    else
      let out := onReadDoneCallback env false hasPipe false remaining data chunk
      match out.next with
      | CbNext.terminated c => ReadLoopResult.completed c out.events
      | CbNext.finishPartition => ReadLoopResult.finished out.data (pos + chunk.length)
      | CbNext.scheduleRead =>
          readLoop env hasPipe dev fuel (pos + chunk.length) out.remaining out.data

/-- Outcome of handling one partition: advance to the next partition with the
(possibly updated) plan, or complete the whole action with a code. -/
inductive PartStep where
  | advanced (plan : InstallPlan)
  | completed (code : ErrorCode)
  | outOfFuel
  deriving Repr

/-- `StartPartitionHashing` for one partition (lines 130–169, i.e. the part
after the all-partitions-done check) followed by the read loop and
`FinishPartitionHashing` (lines 230–257).  The `openDevice` event records the
`chromeos::FileStream::Open` call on the resolved device path. -/
def startPartitionHashing (env : FsvEnv) (mode : VerifierMode) (hasPipe : Bool)
    (plan : InstallPlan) (idx : Nat) (part : Partition) :
    PartStep × List FsvEvent :=
  let slot := match mode with
    | VerifierMode.kComputeSourceHash => plan.source_slot
    | VerifierMode.kVerifyTargetHash => plan.target_slot
  let size := match mode with
    | VerifierMode.kComputeSourceHash => part.source_size
    | VerifierMode.kVerifyTargetHash => part.target_size
  let partPath := (env.getPartitionDevice part.name slot).getD ""
  if partPath = "" then
    (PartStep.completed ErrorCode.kFilesystemVerifierError,
      cleanupEvents false hasPipe ErrorCode.kFilesystemVerifierError)
  else if !env.openOk partPath then
    (PartStep.completed ErrorCode.kFilesystemVerifierError,
      FsvEvent.openDevice partPath ::
        cleanupEvents false hasPipe ErrorCode.kFilesystemVerifierError)
  else
    match readLoop env hasPipe (env.deviceContent partPath) (size + 1) 0 size [] with
    | ReadLoopResult.outOfFuel => (PartStep.outOfFuel, [FsvEvent.openDevice partPath])
    | ReadLoopResult.completed c evs =>
        (PartStep.completed c, FsvEvent.openDevice partPath :: evs)
    | ReadLoopResult.finished data _ =>
        if !env.hashFinalizeOk data then
          (PartStep.completed ErrorCode.kError,
            FsvEvent.openDevice partPath :: cleanupEvents false hasPipe ErrorCode.kError)
        else
          match mode with
          | VerifierMode.kComputeSourceHash =>
              (PartStep.advanced
                { plan with partitions :=
                    plan.partitions.set idx { part with source_hash := env.hashFn data } },
                [FsvEvent.openDevice partPath])
          | VerifierMode.kVerifyTargetHash =>
              if part.target_hash ≠ env.hashFn data then
                (PartStep.completed ErrorCode.kNewRootfsVerificationError,
                  FsvEvent.openDevice partPath ::
                    cleanupEvents false hasPipe ErrorCode.kNewRootfsVerificationError)
              else (PartStep.advanced plan, [FsvEvent.openDevice partPath])

/-- The partition iteration of `StartPartitionHashing` (lines 125–129 plus the
`partition_index_++; StartPartitionHashing()` tail of
`FinishPartitionHashing`), for the uncancelled run.  Returns the completion
code delivered (`none` only on fuel exhaustion), the final plan, and the event
trace.  Fuel `plan.partitions.length + 1 - idx` always suffices. -/
def runPartitions (env : FsvEnv) (mode : VerifierMode) (hasPipe : Bool) :
    Nat → InstallPlan → Nat → Option ErrorCode × InstallPlan × List FsvEvent
  | 0, plan, _ => (none, plan, [])
  | fuel + 1, plan, idx =>
    if idx = plan.partitions.length then
      (some ErrorCode.kSuccess, plan, cleanupEvents false hasPipe ErrorCode.kSuccess)
    else
      match startPartitionHashing env mode hasPipe plan idx
          (plan.partitions.getD idx {}) with
      | (PartStep.advanced plan', evs) =>
          let r := runPartitions env mode hasPipe fuel plan' (idx + 1)
          (r.1, r.2.1, evs ++ r.2.2)
      | (PartStep.completed c, evs) => (some c, plan, evs)
      | (PartStep.outOfFuel, evs) => (none, plan, evs)

/-- The legacy-partition synthesis block of `PerformAction` (lines 59–90).
`none` models the early `return` paths, on which the scoped action completer
fires with its default code. -/
def legacyPartitionSynthesis (env : FsvEnv) (mode : VerifierMode)
    (plan : InstallPlan) : Option InstallPlan :=
  if !plan.is_full_update ∧ plan.partitions.isEmpty ∧
      mode = VerifierMode.kComputeSourceHash then
    match env.getPartitionDevice kLegacyPartitionNameRoot plan.source_slot with
    | none => none
    | some rootPath =>
      let rootSize := match env.getFilesystemSize rootPath with
        | some (blockCount, blockSize) => blockCount * blockSize
        | none => 0
      let rootPart : Partition :=
        { name := kLegacyPartitionNameRoot, source_size := rootSize }
      match env.getPartitionDevice kLegacyPartitionNameKernel plan.source_slot with
      | none => none
      | some kernelPath =>
        match env.fileSize kernelPath with
        | none => none
        | some kernelSize =>
          some { plan with partitions :=
            [rootPart,
             { rootPart with name := kLegacyPartitionNameKernel,
                             source_size := kernelSize }] }
  else some plan

/-- `FilesystemVerifierAction::PerformAction` (lines 49–102) composed with the
whole asynchronous continuation it arranges, for a run during which
`TerminateProcessing` is never invoked: the event trace the action produces
from `perform()` to its completion. -/
def fsvPerformEvents (env : FsvEnv) (mode : VerifierMode)
    (hasInput hasPipe : Bool) (plan₀ : InstallPlan) : List FsvEvent :=
  if !hasInput then [FsvEvent.actionComplete ErrorCode.kError]
  else
    match legacyPartitionSynthesis env mode plan₀ with
    | none => [FsvEvent.actionComplete ErrorCode.kError]
    | some plan =>
      if plan.partitions.isEmpty then
        (if hasPipe then [FsvEvent.setOutput] else []) ++
          [FsvEvent.actionComplete ErrorCode.kSuccess]
      else
        (runPartitions env mode hasPipe (plan.partitions.length + 1) plan 0).2.2

/-! ## DownloadAction (download_action.cc) -/

/-- The on-disk state of the P2P share file: its current length and whether
the P2P manager has made it visible to peers. -/
structure P2PFileState where
  length : Nat
  visible : Bool
  deriving DecidableEq, Repr

/-- The mutable fields of `DownloadAction` that the embedded methods touch,
together with the share file itself (`p2pFile = none` models a file that does
not exist).  `p2pFileId = ""` models an empty `p2p_file_id_`, i.e. P2P
sharing not (or no longer) in use. -/
structure DlState where
  code : ErrorCode
  bytesReceived : Nat
  p2pFileId : String
  p2pFdOpen : Bool
  p2pVisible : Bool
  writerPresent : Bool
  performerPresent : Bool
  p2pFile : Option P2PFileState
  deriving DecidableEq, Repr

/-- Externally observable effects of the download action. -/
inductive DlEvent where
  | p2pWrite (offset len : Nat)
  | p2pDeleteFile
  | p2pMakeVisible (fileId : String)
  | terminateTransfer
  | writerClose
  | setOutput
  | actionComplete (code : ErrorCode)
  deriving DecidableEq, Repr

/-- Environment of `SetupP2PSharingFd`: whether `P2PManager::FileShare`, the
`open` and the `fchmod` calls succeed, and the length a freshly allocated
share file gets. -/
structure DlEnv where
  fileShareOk : Bool
  openOk : Bool
  chmodOk : Bool
  allocLen : Nat
  deriving DecidableEq, Repr

/-- Per-callback inputs to `ReceivedBytes`: the chunk length, the outcomes of
the `fstat` / `lseek` / `write` calls on the share file, the applier's
`Write` outcome and error code, whether `IsManifestValid` holds, and an
optional external truncation of the share file happening right before the
callback (the corrupted-share-file scenario). -/
structure RbInput where
  len : Nat
  statOk : Bool
  seekOk : Bool
  writeOk : Bool
  writerOk : Bool
  writerCode : ErrorCode
  manifestValid : Bool
  truncateTo : Option Nat
  deriving DecidableEq, Repr

/-- `DownloadAction::CloseP2PSharingFd` (download_action.cc lines 56–76):
close the fd if open, unlink the share file when `deleteFile`, and clear
`p2p_file_id_` so P2P is not used from this point onwards. -/
def closeP2PSharingFd (s : DlState) (deleteFile : Bool) : DlState × List DlEvent :=
  let s := { s with p2pFdOpen := false }
  if deleteFile then
    ({ s with p2pFile := none, p2pFileId := "" }, [DlEvent.p2pDeleteFile])
  else ({ s with p2pFileId := "" }, [])

/-- `DownloadAction::SetupP2PSharingFd` (lines 78–112).  `FileShare` keeps an
existing share file and otherwise creates a fresh, not-yet-visible one of
`allocLen` bytes; on success the fd is open and `p2p_visible_` is loaded from
the file via `FileGetVisible`. -/
def setupP2PSharingFd (env : DlEnv) (s : DlState) : DlState × List DlEvent :=
  if !env.fileShareOk then closeP2PSharingFd s true
  else
    let f := match s.p2pFile with
      | some f => f
      | none => { length := env.allocLen, visible := false }
    let s := { s with p2pFile := some f }
    if !env.openOk then closeP2PSharingFd s true
    else if !env.chmodOk then closeP2PSharingFd s true
    else ({ s with p2pFdOpen := true, p2pVisible := f.visible }, [])

/-- `DownloadAction::WriteToP2PFile` (lines 114–161): lazily set up the fd,
then stat the file; a stat failure, a file shorter than the write offset, a
seek failure or a short write all close and delete the share file; otherwise
the chunk is written at `fileOffset`. -/
def writeToP2PFile (env : DlEnv) (inp : RbInput) (s : DlState)
    (length fileOffset : Nat) : DlState × List DlEvent :=
  let r := if !s.p2pFdOpen then setupP2PSharingFd env s else (s, [])
  let s := r.1
  if !s.p2pFdOpen then r
  else
    let p2pSize : Option Nat :=
      if inp.statOk then s.p2pFile.map (fun f => f.length) else none
    match p2pSize with
    | none =>
      let r2 := closeP2PSharingFd s true
      (r2.1, r.2 ++ r2.2)
    | some sz =>
      if sz < fileOffset then
        let r2 := closeP2PSharingFd s true
        (r2.1, r.2 ++ r2.2)
      else if !inp.seekOk then
        let r2 := closeP2PSharingFd s true
        (r2.1, r.2 ++ r2.2)
      else if !inp.writeOk then
        let r2 := closeP2PSharingFd s true
        (r2.1, r.2 ++ r2.2)
      else
        let extend := fun (f : P2PFileState) =>
          { f with length := max f.length (fileOffset + length) }
        ({ s with p2pFile := s.p2pFile.map extend },
          r.2 ++ [DlEvent.p2pWrite fileOffset length])

/-- `DownloadAction::TerminateProcessing` (lines 234–246): close the writer,
close the P2P fd but keep the file, and ask the fetcher to terminate the
transfer (the `terminateTransfer` event). -/
def dlTerminateProcessing (s : DlState) : DlState × List DlEvent :=
  let r := if s.writerPresent then
      ({ s with writerPresent := false }, [DlEvent.writerClose])
    else (s, [])
  let r2 := closeP2PSharingFd r.1 false
  (r2.1, r.2 ++ r2.2 ++ [DlEvent.terminateTransfer])

/-- The external interference applied to the share file right before a
`ReceivedBytes` callback runs: an optional truncation by another process
(the corrupted-share-file scenario).  This is a step of the world, not of
the code. -/
def rbTruncate (inp : RbInput) (s : DlState) : DlState :=
  match inp.truncateTo, s.p2pFile with
  | some l, some f => { s with p2pFile := some { f with length := min f.length l } }
  | _, _ => s

/-- The P2P mirroring step of `ReceivedBytes` (lines 256–258): mirror the
chunk at the current offset when `p2p_file_id_` is non-empty. -/
def rbWritePhase (env : DlEnv) (inp : RbInput) (s : DlState) :
    DlState × List DlEvent :=
  if s.p2pFileId ≠ "" then writeToP2PFile env inp s inp.len s.bytesReceived
  else (s, [])

/-- The tail of `ReceivedBytes` (lines 263–283), run on the state `m` after
the mirroring step and the `bytes_received_` update: forward the chunk to the
applier — on failure latch the code, delete the share file if in use and run
`TerminateProcessing` — otherwise promote the share file to visible once the
performer reports the manifest valid. -/
def rbFinish (inp : RbInput) (m : DlState) : DlState × List DlEvent :=
  if m.writerPresent && !inp.writerOk then
    let s := { m with code := inp.writerCode }
    let r2 := if s.p2pFileId ≠ "" then closeP2PSharingFd s true else (s, [])
    let r3 := dlTerminateProcessing r2.1
    (r3.1, r2.2 ++ r3.2)
  else
    if !m.p2pVisible && m.performerPresent && inp.manifestValid then
      let promote := fun (f : P2PFileState) =>
        if m.p2pFileId ≠ "" then { f with visible := true } else f
      ({ m with p2pVisible := true, p2pFile := m.p2pFile.map promote },
        [DlEvent.p2pMakeVisible m.p2pFileId])
    else (m, [])

/-- `DownloadAction::ReceivedBytes` (lines 252–284), as the composition of
the world's truncation step, the mirroring phase, the `bytes_received_`
advance, and the applier/promotion tail. -/
def receivedBytes (env : DlEnv) (s : DlState) (inp : RbInput) :
    DlState × List DlEvent :=
  let s1 := rbTruncate inp s
  let r := rbWritePhase env inp s1
  let m := { r.1 with bytesReceived := r.1.bytesReceived + inp.len }
  let r2 := rbFinish inp m
  (r2.1, r.2 ++ r2.2)

/-- A whole sequence of `ReceivedBytes` callbacks, folded left to right. -/
def runReceivedBytes (env : DlEnv) : DlState → List RbInput → DlState × List DlEvent
  | s, [] => (s, [])
  | s, inp :: rest =>
    let r := receivedBytes env s inp
    let r2 := runReceivedBytes env r.1 rest
    (r2.1, r.2 ++ r2.2)

/-- `DownloadAction::TransferComplete` (lines 286–312): close the writer, map
an unsuccessful transfer to `kDownloadTransferError`, otherwise run the
applier's `VerifyPayload` (whose return value `verifyCode` the environment
supplies) and adopt its code; on verification failure delete the share file;
forward the install plan only on overall success; finally deliver the
completion.  The second component of the result is the code passed to
`ActionComplete`. -/
def transferComplete (s : DlState) (successful : Bool) (verifyCode : ErrorCode)
    (hasPipe : Bool) : DlState × ErrorCode × List DlEvent :=
  let r := if s.writerPresent then
      ({ s with writerPresent := false }, [DlEvent.writerClose])
    else (s, [])
  let s := r.1
  let code0 := if successful then ErrorCode.kSuccess
    else ErrorCode.kDownloadTransferError
  let r2 :=
    if code0 = ErrorCode.kSuccess ∧ s.performerPresent then
      if verifyCode ≠ ErrorCode.kSuccess ∧ s.p2pFileId ≠ "" then
        let rc := closeP2PSharingFd s true
        (verifyCode, rc.1, rc.2)
      else (verifyCode, s, ([] : List DlEvent))
    else (code0, s, ([] : List DlEvent))
  let code := r2.1
  let e3 := if code = ErrorCode.kSuccess ∧ hasPipe then [DlEvent.setOutput] else []
  (r2.2.1, code, r.2 ++ r2.2.2 ++ e3 ++ [DlEvent.actionComplete code])

/-- `DownloadAction::TransferTerminated` (lines 314–318): surface the latched
`code_` if and only if it is not `kSuccess`. -/
def transferTerminated (s : DlState) : List DlEvent :=
  if s.code ≠ ErrorCode.kSuccess then [DlEvent.actionComplete s.code] else []

/-- The `DownloadAction` state right after `PerformAction` (lines 163–232)
and an optional `SeekToOffset` (lines 248–250): `code_` is `kSuccess`,
`bytes_received_` is the resume offset, the delta performer is installed as
the writer, `p2p_visible_` starts `true` (constructor, line 52), and
`p2p_file_id_` is kept only when sharing is enabled — otherwise any
pre-existing partial share file is deleted. -/
def dlPerformInit (usingP2PForSharing : Bool) (fileId : String)
    (preFile : Option P2PFileState) (resumeOffset : Nat) : DlState :=
  { code := ErrorCode.kSuccess
    bytesReceived := resumeOffset
    p2pFileId := if usingP2PForSharing then fileId else ""
    p2pFdOpen := false
    p2pVisible := true
    writerPresent := true
    performerPresent := true
    p2pFile := if usingP2PForSharing then preFile else none }

/-- Truth of "this event is a completion delivered to the processor", for
counting. -/
def FsvEvent.isComplete : FsvEvent → Bool
  | FsvEvent.actionComplete _ => true
  | _ => false

/-- Truth of "this event is a `FileMakeVisible` call on the P2P manager". -/
def DlEvent.isMakeVisible : DlEvent → Bool
  | DlEvent.p2pMakeVisible _ => true
  | _ => false

/-- Truth of "this event touches the P2P share file on disk". -/
def DlEvent.isP2PFileOp : DlEvent → Bool
  | DlEvent.p2pWrite _ _ => true
  | DlEvent.p2pDeleteFile => true
  | _ => false

/-- Truth of "this event is a completion delivered to the processor". -/
def DlEvent.isComplete : DlEvent → Bool
  | DlEvent.actionComplete _ => true
  | _ => false

/-! ## Concrete environments for witnesses and counterexamples -/

/-- A small concrete verifier environment: one ordinary device of eight
bytes, plus the legacy root/kernel devices; the hash of a byte sequence is
the sequence itself. -/
def envB : FsvEnv :=
  { getPartitionDevice := fun n _ =>
      if n = "p1" then some "devp1"
      else if n = kLegacyPartitionNameRoot then some "rootdev"
      else if n = kLegacyPartitionNameKernel then some "kerneldev"
      else none
    deviceContent := fun p => if p = "devp1" then [1, 2, 3, 4, 5, 6, 7, 8] else []
    openOk := fun _ => true
    readAsyncOk := fun _ => true
    hashUpdateOk := fun _ => true
    hashFinalizeOk := fun _ => true
    hashFn := fun l => l
    getFilesystemSize := fun p => if p = "rootdev" then some (4, 1024) else none
    fileSize := fun p => if p = "kerneldev" then some 512 else none }

/-- A partition whose target view is the first five bytes of `devp1`. -/
def partB : Partition := { name := "p1", target_size := 5, target_hash := [1, 2, 3, 4, 5] }

/-- A plan holding just `partB`, targeting slot 0. -/
def planB : InstallPlan := { target_slot := 0, partitions := [partB] }

/-- A zero-byte partition on `devp1` (its target hash is the hash of the
empty byte sequence, which under `envB.hashFn` is `[]`). -/
def partZ : Partition := { name := "p1", target_size := 0, target_hash := [] }

/-- A plan holding just the zero-byte partition `partZ`. -/
def planZ : InstallPlan := { target_slot := 0, partitions := [partZ] }

/-- A delta plan with an empty partition list, for the legacy-synthesis
claim. -/
def planL : InstallPlan := { is_full_update := false, source_slot := 0 }

/-- A concrete download environment where all P2P setup calls succeed. -/
def envD : DlEnv := { fileShareOk := true, openOk := true, chmodOk := true, allocLen := 100 }

/-- A download state mid-transfer: sharing in use, fd open, 40 bytes
received, a hidden 100-byte share file. -/
def dlMid : DlState :=
  { code := ErrorCode.kSuccess
    bytesReceived := 40
    p2pFileId := "fid"
    p2pFdOpen := true
    p2pVisible := false
    writerPresent := true
    performerPresent := true
    p2pFile := some { length := 100, visible := false } }

/-- A `ReceivedBytes` input on which every external call succeeds and the
applier accepts the bytes. -/
def rbOk : RbInput :=
  { len := 10, statOk := true, seekOk := true, writeOk := true,
    writerOk := true, writerCode := ErrorCode.kSuccess,
    manifestValid := false, truncateTo := none }

/-! ## Theorems.  First the install-plan equality claim. -/

theorem Partition.eqOp_self (p : Partition) : p.eqOp p = true := by
  simp [Partition.eqOp]

theorem partitionsEq_self (ps : List Partition) : partitionsEq ps ps = true := by
  induction ps with
  | nil => rfl
  | cons p ps ih => simp [partitionsEq, Partition.eqOp_self, ih]

/-- Claim C10: `InstallPlan::operator==` (and therefore `operator!=`) ignores
the fields `hash_checks_mandatory`, `powerwash_required`, and
`public_key_rsa`: two InstallPlans that differ only in any of those three
fields compare equal (and are not unequal). -/
theorem installPlan_eqOp_ignores_three_fields
    (a : InstallPlan) (h pw : Bool) (pk : String) :
    InstallPlan.eqOp
        { a with hash_checks_mandatory := h, powerwash_required := pw,
                 public_key_rsa := pk } a = true ∧
    InstallPlan.neOp
        { a with hash_checks_mandatory := h, powerwash_required := pw,
                 public_key_rsa := pk } a = false := by
  constructor
  · simp [InstallPlan.eqOp, partitionsEq_self]
  · simp [InstallPlan.neOp, InstallPlan.eqOp, partitionsEq_self]

/-! ### Lemmas about the read loop -/

theorem cleanupEvents_uncancelled_count (hasPipe : Bool) (code : ErrorCode) :
    (cleanupEvents false hasPipe code).countP FsvEvent.isComplete = 1 := by
  unfold cleanupEvents
  split <;> simp_all [List.countP_append, List.countP_cons, FsvEvent.isComplete]

theorem onReadDoneCallback_continue (env : FsvEnv) (hasPipe : Bool)
    (remaining : Nat) (data chunk : List Nat)
    (hc : chunk.length ≠ 0) (hu : env.hashUpdateOk (data ++ chunk) = true)
    (hr : remaining - chunk.length ≠ 0) :
    onReadDoneCallback env false hasPipe false remaining data chunk =
      ⟨false, remaining - chunk.length, data ++ chunk, [], CbNext.scheduleRead⟩ := by
  unfold onReadDoneCallback
  rw [if_neg hc, if_neg (by simp [hu]), if_neg (by simp), if_neg (by simp [hr])]

theorem onReadDoneCallback_finish (env : FsvEnv) (hasPipe : Bool)
    (remaining : Nat) (data chunk : List Nat)
    (hc : chunk.length ≠ 0) (hu : env.hashUpdateOk (data ++ chunk) = true)
    (hr : remaining - chunk.length = 0) :
    onReadDoneCallback env false hasPipe false remaining data chunk =
      ⟨false, remaining - chunk.length, data ++ chunk, [],
        CbNext.finishPartition⟩ := by
  unfold onReadDoneCallback
  rw [if_neg hc, if_neg (by simp [hu]), if_neg (by simp),
    if_pos (Or.inr hr), if_neg (by simp [hr])]

theorem onReadDoneCallback_zero_short (env : FsvEnv) (hasPipe : Bool)
    (remaining : Nat) (data : List Nat) (hr : remaining ≠ 0) :
    onReadDoneCallback env false hasPipe false remaining data [] =
      ⟨true, remaining, data,
        cleanupEvents false hasPipe ErrorCode.kFilesystemVerifierError,
        CbNext.terminated ErrorCode.kFilesystemVerifierError⟩ := by
  unfold onReadDoneCallback
  have h0 : ([] : List Nat).length = 0 := rfl
  rw [if_pos h0, if_neg (by simp), if_pos hr]

theorem onReadDoneCallback_zero_done (env : FsvEnv) (hasPipe : Bool)
    (data : List Nat) :
    onReadDoneCallback env false hasPipe false 0 data [] =
      ⟨true, 0, data, [], CbNext.finishPartition⟩ := by
  unfold onReadDoneCallback
  have h0 : ([] : List Nat).length = 0 := rfl
  rw [if_pos h0, if_neg (by simp), if_neg (by simp)]

theorem readLoop_complete (env : FsvEnv) (hasPipe : Bool) (dev : List Nat)
    (hupd : ∀ l, env.hashUpdateOk l = true)
    (hasync : ∀ p, env.readAsyncOk p = true) :
    ∀ fuel pos remaining data, remaining < fuel →
      pos + remaining ≤ dev.length →
      readLoop env hasPipe dev fuel pos remaining data =
        ReadLoopResult.finished (data ++ (dev.drop pos).take remaining)
          (pos + remaining) := by
  intro fuel
  induction fuel with
  | zero => intro pos remaining data h _; omega
  | succ fuel ih =>
    intro pos remaining data hfuel hlen
    rw [readLoop]
    rcases Nat.eq_zero_or_pos remaining with hr | hr
    · subst hr
      simp [onReadDoneCallback_zero_done]
    · have hB : min kReadFileBufferSize remaining ≠ 0 := by
        simp only [ne_eq, Nat.min_eq_zero_iff, kReadFileBufferSize]
        omega
      rw [if_neg (by simp [hasync])]
      set n := min (min kReadFileBufferSize remaining) (dev.length - pos) with hn
      have hn_le_rem : n ≤ remaining := le_trans (min_le_left _ _) (min_le_right _ _)
      have hn_le_avail : n ≤ dev.length - pos := min_le_right _ _
      have hn_pos : 0 < n := by
        simp only [hn, Nat.lt_min]
        exact ⟨⟨by simp [kReadFileBufferSize], hr⟩, by omega⟩
      have hchunk_len : ((dev.drop pos).take n).length = n := by
        simp only [List.length_take, List.length_drop]
        omega
      by_cases hterm : remaining - n = 0
      · have hn_eq : n = remaining := by omega
        rw [onReadDoneCallback_finish env hasPipe remaining data _
              (by rw [hchunk_len]; omega) (hupd _) (by rw [hchunk_len]; omega)]
        dsimp only
        rw [hchunk_len, hn_eq]
      · rw [onReadDoneCallback_continue env hasPipe remaining data _
              (by rw [hchunk_len]; omega) (hupd _) (by rw [hchunk_len]; omega)]
        dsimp only
        rw [hchunk_len,
          ih (pos + n) (remaining - n) (data ++ (dev.drop pos).take n)
            (by omega) (by omega)]
        have hsplit : (dev.drop pos).take remaining =
            (dev.drop pos).take n ++ ((dev.drop pos).drop n).take (remaining - n) := by
          rw [← List.take_add]
          congr 1
          omega
        rw [List.drop_drop] at hsplit
        rw [List.append_assoc, ← hsplit]
        congr 1
        omega

theorem readLoop_short (env : FsvEnv) (hasPipe : Bool) (dev : List Nat)
    (hupd : ∀ l, env.hashUpdateOk l = true)
    (hasync : ∀ p, env.readAsyncOk p = true) :
    ∀ fuel pos remaining data, remaining < fuel → 0 < remaining →
      dev.length < pos + remaining →
      readLoop env hasPipe dev fuel pos remaining data =
        ReadLoopResult.completed ErrorCode.kFilesystemVerifierError
          (cleanupEvents false hasPipe ErrorCode.kFilesystemVerifierError) := by
  intro fuel
  induction fuel with
  | zero => intro pos remaining data h _ _; omega
  | succ fuel ih =>
    intro pos remaining data hfuel hr hlen
    rw [readLoop]
    have hB : min kReadFileBufferSize remaining ≠ 0 := by
      simp only [ne_eq, Nat.min_eq_zero_iff, kReadFileBufferSize]
      omega
    rw [if_neg (by simp [hasync])]
    set n := min (min kReadFileBufferSize remaining) (dev.length - pos) with hn
    have hn_le_rem : n ≤ remaining := le_trans (min_le_left _ _) (min_le_right _ _)
    have hn_le_avail : n ≤ dev.length - pos := min_le_right _ _
    rcases Nat.eq_zero_or_pos (dev.length - pos) with havail | havail
    · have hn0 : n = 0 := by omega
      have hchunk : (dev.drop pos).take n = [] := by
        rw [hn0, List.take_zero]
      rw [hchunk, onReadDoneCallback_zero_short env hasPipe remaining data (by omega)]
    · have hn_pos : 0 < n := by
        simp only [hn, Nat.lt_min]
        exact ⟨⟨by simp [kReadFileBufferSize], hr⟩, havail⟩
      have hchunk_len : ((dev.drop pos).take n).length = n := by
        simp only [List.length_take, List.length_drop]
        omega
      have havail_lt : dev.length - pos < remaining := by omega
      rw [onReadDoneCallback_continue env hasPipe remaining data _
            (by rw [hchunk_len]; omega) (hupd _) (by omega)]
      dsimp only
      rw [hchunk_len]
      exact ih (pos + n) (remaining - n) (data ++ (dev.drop pos).take n)
        (by omega) (by omega) (by omega)

theorem onReadDoneCallback_updateFail (env : FsvEnv) (hasPipe : Bool)
    (remaining : Nat) (data chunk : List Nat)
    (hc : chunk.length ≠ 0) (hu : env.hashUpdateOk (data ++ chunk) = false) :
    onReadDoneCallback env false hasPipe false remaining data chunk =
      ⟨false, remaining - chunk.length, data,
        cleanupEvents false hasPipe ErrorCode.kError,
        CbNext.terminated ErrorCode.kError⟩ := by
  unfold onReadDoneCallback
  rw [if_neg hc, if_pos (by simp [hu])]

/-- Claim C1: in `VerifyTargetHash` mode, for every partition, the action
advances past that partition with success if and only if the hash computed
over the first `target_size` bytes read from the target slot's device equals
the partition's `target_hash` field; any mismatch makes the action complete
with `kNewRootfsVerificationError`. -/
theorem fsv_verifyTargetHash_advance_iff (env : FsvEnv) (plan : InstallPlan)
    (idx : Nat) (part : Partition) (hasPipe : Bool) (path : String)
    (hdev : env.getPartitionDevice part.name plan.target_slot = some path)
    (hpath : path ≠ "")
    (hopen : env.openOk path = true)
    (hlen : part.target_size ≤ (env.deviceContent path).length)
    (hupd : ∀ l, env.hashUpdateOk l = true)
    (hfin : ∀ l, env.hashFinalizeOk l = true)
    (hasync : ∀ p, env.readAsyncOk p = true) :
    ((startPartitionHashing env VerifierMode.kVerifyTargetHash hasPipe plan idx
        part).1 = PartStep.advanced plan ↔
      env.hashFn ((env.deviceContent path).take part.target_size) =
        part.target_hash) ∧
    (env.hashFn ((env.deviceContent path).take part.target_size) ≠
        part.target_hash →
      startPartitionHashing env VerifierMode.kVerifyTargetHash hasPipe plan idx
          part =
        (PartStep.completed ErrorCode.kNewRootfsVerificationError,
          FsvEvent.openDevice path ::
            cleanupEvents false hasPipe ErrorCode.kNewRootfsVerificationError)) := by
  have hloop := readLoop_complete env hasPipe (env.deviceContent path) hupd hasync
    (part.target_size + 1) 0 part.target_size [] (by omega) (by omega)
  simp only [List.drop_zero, List.nil_append] at hloop
  unfold startPartitionHashing
  simp only [hdev, Option.getD_some]
  rw [if_neg hpath, if_neg (by simp [hopen]), hloop]
  try dsimp only
  rw [if_neg (by simp [hfin])]
  by_cases hh : env.hashFn ((env.deviceContent path).take part.target_size) =
      part.target_hash
  · rw [if_neg (by simp [hh.symm])]
    exact ⟨⟨fun _ => hh, fun _ => rfl⟩, fun hc => absurd hh hc⟩
  · rw [if_pos (by intro he; exact hh he.symm)]
    constructor
    · constructor
      · intro he
        exact absurd he (by simp)
      · intro he
        exact absurd he hh
    · intro _
      rfl

/-- Witness for C1 at a concrete environment: the five-byte target partition
`partB` on device `devp1` advances (its hash matches), by the theorem's
forward direction; and with a flipped expected hash the same device yields
`kNewRootfsVerificationError`. -/
theorem fsv_verifyTargetHash_advance_iff_witness :
    (startPartitionHashing envB VerifierMode.kVerifyTargetHash true planB 0
        partB).1 = PartStep.advanced planB ∧
    startPartitionHashing envB VerifierMode.kVerifyTargetHash true planB 0
        { partB with target_hash := [9] } =
      (PartStep.completed ErrorCode.kNewRootfsVerificationError,
        FsvEvent.openDevice "devp1" ::
          cleanupEvents false true ErrorCode.kNewRootfsVerificationError) := by
  constructor
  · exact (fsv_verifyTargetHash_advance_iff envB planB 0 partB true "devp1"
      rfl (by decide) rfl (by decide) (fun _ => rfl) (fun _ => rfl)
      (fun _ => rfl)).1.mpr (by decide)
  · exact (fsv_verifyTargetHash_advance_iff envB planB 0
      { partB with target_hash := [9] } true "devp1"
      rfl (by decide) rfl (by decide) (fun _ => rfl) (fun _ => rfl)
      (fun _ => rfl)).2 (by decide)

/-- Claim C4: the per-partition read loop continues (schedules another read)
exactly when the read was non-empty, `remaining_size` has not reached zero
and the hasher accepted the chunk; a zero-byte read with `remaining_size`
still positive runs `Cleanup(kFilesystemVerifierError)` (delivering that
completion); a zero-byte read with `remaining_size = 0` ends the partition
normally. -/
theorem fsv_read_loop_termination (env : FsvEnv) (hasPipe : Bool)
    (remaining : Nat) (data chunk : List Nat) :
    ((onReadDoneCallback env false hasPipe false remaining data chunk).next =
        CbNext.scheduleRead ↔
      chunk.length ≠ 0 ∧ remaining - chunk.length ≠ 0 ∧
        env.hashUpdateOk (data ++ chunk) = true) ∧
    (chunk.length = 0 → remaining ≠ 0 →
      (onReadDoneCallback env false hasPipe false remaining data chunk).next =
        CbNext.terminated ErrorCode.kFilesystemVerifierError ∧
      FsvEvent.actionComplete ErrorCode.kFilesystemVerifierError ∈
        (onReadDoneCallback env false hasPipe false remaining data chunk).events) ∧
    (chunk.length = 0 → remaining = 0 →
      (onReadDoneCallback env false hasPipe false remaining data chunk).next =
        CbNext.finishPartition) := by
  refine ⟨?_, ?_, ?_⟩
  · by_cases hc : chunk.length = 0
    · have hnil : chunk = [] := List.length_eq_zero.mp hc
      subst hnil
      by_cases hr : remaining = 0
      · subst hr
        rw [onReadDoneCallback_zero_done]
        simp
      · rw [onReadDoneCallback_zero_short env hasPipe remaining data hr]
        simp
    · by_cases hu : env.hashUpdateOk (data ++ chunk) = true
      · by_cases hr : remaining - chunk.length = 0
        · rw [onReadDoneCallback_finish env hasPipe remaining data chunk hc hu hr]
          simp [hc, hr]
        · rw [onReadDoneCallback_continue env hasPipe remaining data chunk hc hu hr]
          simp [hc, hr, hu]
      · rw [onReadDoneCallback_updateFail env hasPipe remaining data chunk hc
          (by revert hu; cases env.hashUpdateOk (data ++ chunk) <;> simp)]
        simp [hu]
  · intro hc hr
    have hnil : chunk = [] := List.length_eq_zero.mp hc
    subst hnil
    rw [onReadDoneCallback_zero_short env hasPipe remaining data hr]
    refine ⟨rfl, ?_⟩
    unfold cleanupEvents
    simp
  · intro hc hr
    have hnil : chunk = [] := List.length_eq_zero.mp hc
    subst hnil
    subst hr
    rw [onReadDoneCallback_zero_done]

/-- Witness for C4 at concrete inputs: a zero-byte read with five bytes still
expected completes with `kFilesystemVerifierError`; a two-byte read with more
expected schedules another read. -/
theorem fsv_read_loop_termination_witness :
    ((onReadDoneCallback envB false true false 5 [] []).next =
        CbNext.terminated ErrorCode.kFilesystemVerifierError ∧
      FsvEvent.actionComplete ErrorCode.kFilesystemVerifierError ∈
        (onReadDoneCallback envB false true false 5 [] []).events) ∧
    (onReadDoneCallback envB false true false 5 [] [1, 2]).next =
      CbNext.scheduleRead := by
  constructor
  · exact (fsv_read_loop_termination envB true 5 [] []).2.1 rfl (by decide)
  · exact (fsv_read_loop_termination envB true 5 [] [1, 2]).1.mpr
      (by refine ⟨by decide, by decide, rfl⟩)

theorem readLoop_cases (env : FsvEnv) (hasPipe : Bool) (dev : List Nat) :
    ∀ fuel pos remaining data, remaining < fuel →
      (∃ d p, readLoop env hasPipe dev fuel pos remaining data =
          ReadLoopResult.finished d p) ∨
      (∃ c, readLoop env hasPipe dev fuel pos remaining data =
          ReadLoopResult.completed c (cleanupEvents false hasPipe c)) := by
  intro fuel
  induction fuel with
  | zero => intro pos remaining data h; omega
  | succ fuel ih =>
    intro pos remaining data hfuel
    rw [readLoop]
    by_cases hb : min kReadFileBufferSize remaining ≠ 0 ∧
        (!env.readAsyncOk pos) = true
    · rw [if_pos hb]
      exact Or.inr ⟨ErrorCode.kError, rfl⟩
    · rw [if_neg hb]
      set chunk := (dev.drop pos).take
        (min (min kReadFileBufferSize remaining) (dev.length - pos)) with hchunk
      by_cases hcl : chunk.length = 0
      · have hnil : chunk = [] := List.length_eq_zero.mp hcl
        rw [hnil]
        by_cases hr : remaining = 0
        · subst hr
          rw [onReadDoneCallback_zero_done]
          exact Or.inl ⟨data, pos + List.length [], rfl⟩
        · rw [onReadDoneCallback_zero_short env hasPipe remaining data hr]
          exact Or.inr ⟨ErrorCode.kFilesystemVerifierError, rfl⟩
      · by_cases hu : env.hashUpdateOk (data ++ chunk) = true
        · by_cases hr : remaining - chunk.length = 0
          · rw [onReadDoneCallback_finish env hasPipe remaining data chunk hcl hu hr]
            exact Or.inl ⟨data ++ chunk, pos + chunk.length, rfl⟩
          · rw [onReadDoneCallback_continue env hasPipe remaining data chunk hcl hu hr]
            dsimp only
            exact ih (pos + chunk.length) (remaining - chunk.length)
              (data ++ chunk) (by omega)
        · rw [onReadDoneCallback_updateFail env hasPipe remaining data chunk hcl
            (by revert hu; cases env.hashUpdateOk (data ++ chunk) <;> simp)]
          exact Or.inr ⟨ErrorCode.kError, rfl⟩

theorem startPartitionHashing_cases (env : FsvEnv) (mode : VerifierMode)
    (hasPipe : Bool) (plan : InstallPlan) (idx : Nat) (part : Partition) :
    (∃ plan' evs, startPartitionHashing env mode hasPipe plan idx part =
        (PartStep.advanced plan', evs) ∧
        evs.countP FsvEvent.isComplete = 0 ∧
        plan'.partitions.length = plan.partitions.length) ∨
    (∃ c evs, startPartitionHashing env mode hasPipe plan idx part =
        (PartStep.completed c, evs) ∧
        evs.countP FsvEvent.isComplete = 1) := by
  unfold startPartitionHashing
  set slot := match mode with
    | VerifierMode.kComputeSourceHash => plan.source_slot
    | VerifierMode.kVerifyTargetHash => plan.target_slot with hslot
  set size := match mode with
    | VerifierMode.kComputeSourceHash => part.source_size
    | VerifierMode.kVerifyTargetHash => part.target_size with hsize
  set partPath := (env.getPartitionDevice part.name slot).getD "" with hpath
  by_cases hp : partPath = ""
  · rw [if_pos hp]
    exact Or.inr ⟨ErrorCode.kFilesystemVerifierError, _, rfl,
      cleanupEvents_uncancelled_count hasPipe _⟩
  · rw [if_neg hp]
    by_cases ho : (!env.openOk partPath) = true
    · rw [if_pos ho]
      refine Or.inr ⟨ErrorCode.kFilesystemVerifierError, _, rfl, ?_⟩
      simp [List.countP_cons, cleanupEvents_uncancelled_count, FsvEvent.isComplete]
    · rw [if_neg ho]
      rcases readLoop_cases env hasPipe (env.deviceContent partPath)
          (size + 1) 0 size [] (by omega) with ⟨d, p, hl⟩ | ⟨c, hl⟩
      · rw [hl]
        dsimp only
        by_cases hf : (!env.hashFinalizeOk d) = true
        · rw [if_pos hf]
          refine Or.inr ⟨ErrorCode.kError, _, rfl, ?_⟩
          simp [List.countP_cons, cleanupEvents_uncancelled_count, FsvEvent.isComplete]
        · rw [if_neg hf]
          cases mode with
          | kComputeSourceHash =>
            refine Or.inl ⟨_, _, rfl, by simp [FsvEvent.isComplete], ?_⟩
            simp
          | kVerifyTargetHash =>
            by_cases hh : part.target_hash ≠ env.hashFn d
            · rw [if_pos hh]
              refine Or.inr ⟨ErrorCode.kNewRootfsVerificationError, _, rfl, ?_⟩
              simp [List.countP_cons, cleanupEvents_uncancelled_count,
                FsvEvent.isComplete]
            · rw [if_neg hh]
              exact Or.inl ⟨plan, _, rfl, by simp [FsvEvent.isComplete], rfl⟩
      · rw [hl]
        refine Or.inr ⟨c, _, rfl, ?_⟩
        simp [List.countP_cons, cleanupEvents_uncancelled_count, FsvEvent.isComplete]

theorem runPartitions_count (env : FsvEnv) (mode : VerifierMode)
    (hasPipe : Bool) :
    ∀ fuel plan idx, plan.partitions.length - idx < fuel →
      idx ≤ plan.partitions.length →
      ((runPartitions env mode hasPipe fuel plan idx).2.2).countP
        FsvEvent.isComplete = 1 := by
  intro fuel
  induction fuel with
  | zero => intro plan idx h _; omega
  | succ fuel ih =>
    intro plan idx hfuel hidx
    rw [runPartitions]
    by_cases he : idx = plan.partitions.length
    · rw [if_pos he]
      exact cleanupEvents_uncancelled_count hasPipe _
    · rw [if_neg he]
      rcases startPartitionHashing_cases env mode hasPipe plan idx
          (plan.partitions.getD idx {}) with
        ⟨plan', evs, heq, hcount, hlen⟩ | ⟨c, evs, heq, hcount⟩
      · rw [heq]
        dsimp only
        rw [List.countP_append, hcount]
        rw [ih plan' (idx + 1) (by omega) (by omega)]
      · rw [heq]
        dsimp only
        exact hcount

/-- Claim C3 (amended): on every exit path of a run during which
`terminate_processing` is never invoked, the action delivers exactly one
completion to the processor per `perform()` invocation; after
`terminate_processing` is invoked, the `cancelled_` early-return in `Cleanup`
suppresses completion entirely, so the action delivers no completion at all
(see the counterexample). -/
theorem fsv_perform_completes_once (env : FsvEnv) (mode : VerifierMode)
    (hasInput hasPipe : Bool) (plan₀ : InstallPlan) :
    (fsvPerformEvents env mode hasInput hasPipe plan₀).countP
      FsvEvent.isComplete = 1 := by
  unfold fsvPerformEvents
  by_cases hi : (!hasInput) = true
  · rw [if_pos hi]
    rfl
  · rw [if_neg hi]
    cases hsyn : legacyPartitionSynthesis env mode plan₀ with
    | none => rfl
    | some plan =>
      dsimp only
      by_cases hemp : plan.partitions.isEmpty = true
      · rw [if_pos hemp]
        cases hasPipe <;> rfl
      · rw [if_neg hemp]
        exact runPartitions_count env mode hasPipe
          (plan.partitions.length + 1) plan 0 (by omega) (by omega)

/-- Counterexample to C3 as stated: after `TerminateProcessing` sets
`cancelled_`, neither the `Cleanup` it runs itself nor the `Cleanup(kError)`
run by the next read callback (with five bytes still expected, on either an
empty or a non-empty chunk) delivers any completion to the processor — in
particular no completion carrying a cancellation error code. -/
theorem fsv_terminate_suppresses_completion_cex :
    terminateProcessingEvents true = [] ∧
    (onReadDoneCallback envB true true false 5 [] [1, 2]).events = [] ∧
    (onReadDoneCallback envB true true false 5 [] []).events = [] := by
  refine ⟨rfl, rfl, rfl⟩

/-- Claim C9 (amended): for a partition whose size for the current mode is
zero bytes, the action completes that partition immediately with success —
no data bytes are read and no completion is delivered mid-way — but it still
opens the partition's block device (the open happens before the zero-byte
read short-circuits the loop). -/
theorem fsv_zero_size_partition (env : FsvEnv) (mode : VerifierMode)
    (hasPipe : Bool) (plan : InstallPlan) (idx : Nat) (part : Partition)
    (path : String)
    (hsize : (match mode with
      | VerifierMode.kComputeSourceHash => part.source_size
      | VerifierMode.kVerifyTargetHash => part.target_size) = 0)
    (hdev : env.getPartitionDevice part.name
        (match mode with
          | VerifierMode.kComputeSourceHash => plan.source_slot
          | VerifierMode.kVerifyTargetHash => plan.target_slot) = some path)
    (hpath : path ≠ "")
    (hopen : env.openOk path = true)
    (hfin : env.hashFinalizeOk [] = true)
    (hth : mode = VerifierMode.kVerifyTargetHash →
      part.target_hash = env.hashFn []) :
    (∃ plan', (startPartitionHashing env mode hasPipe plan idx part).1 =
        PartStep.advanced plan') ∧
    (startPartitionHashing env mode hasPipe plan idx part).2 =
      [FsvEvent.openDevice path] := by
  have hloop : ∀ dv, readLoop env hasPipe dv 1 0 0 [] =
      ReadLoopResult.finished [] 0 := by
    intro dv
    rw [readLoop]
    rw [if_neg (by simp)]
    have hchunk : (dv.drop 0).take (min (min kReadFileBufferSize 0)
        (dv.length - 0)) = [] := by
      simp
    rw [hchunk, onReadDoneCallback_zero_done]
    rfl
  cases mode with
  | kComputeSourceHash =>
    simp only at hsize hdev
    unfold startPartitionHashing
    dsimp only
    simp only [hdev, Option.getD_some, hsize, Nat.zero_add]
    rw [if_neg hpath, if_neg (by simp [hopen]), hloop]
    dsimp only
    rw [if_neg (by simp [hfin])]
    exact ⟨⟨_, rfl⟩, rfl⟩
  | kVerifyTargetHash =>
    simp only at hsize hdev
    unfold startPartitionHashing
    dsimp only
    simp only [hdev, Option.getD_some, hsize, Nat.zero_add]
    rw [if_neg hpath, if_neg (by simp [hopen]), hloop]
    dsimp only
    rw [if_neg (by simp [hfin])]
    rw [if_neg (by simp [hth rfl])]
    exact ⟨⟨_, rfl⟩, rfl⟩

/-- Witness for the amended C9 at a concrete input: the zero-byte partition
`partZ` advances with success and the only external effect is opening
`devp1`. -/
theorem fsv_zero_size_partition_witness :
    (∃ plan', (startPartitionHashing envB VerifierMode.kVerifyTargetHash true
        planZ 0 partZ).1 = PartStep.advanced plan') ∧
    (startPartitionHashing envB VerifierMode.kVerifyTargetHash true planZ 0
        partZ).2 = [FsvEvent.openDevice "devp1"] :=
  fsv_zero_size_partition envB VerifierMode.kVerifyTargetHash true planZ 0
    partZ "devp1" rfl rfl (by decide) rfl rfl (fun _ => rfl)

/-- Counterexample to C9 as stated: for the zero-byte partition `partZ` the
action does open the partition's block device — the event trace of the
partition is exactly `[openDevice "devp1"]` (`FileStream::Open` on line 152
runs before `ScheduleRead` short-circuits the zero-byte read), even though
the partition completes immediately with success. -/
theorem fsv_zero_size_partition_opens_device_cex :
    (startPartitionHashing envB VerifierMode.kVerifyTargetHash true planZ 0
        partZ).2 = [FsvEvent.openDevice "devp1"] ∧
    (startPartitionHashing envB VerifierMode.kVerifyTargetHash true planZ 0
        partZ).1 = PartStep.advanced planZ := by
  constructor
  · rfl
  · rfl

/-- Claim C7: for a delta update (`is_full_update = false`) whose partition
list is empty, the action in `ComputeSourceHash` mode synthesizes exactly two
partition entries before hashing: "root" with `source_size` equal to the
filesystem's `block_count * block_size`, and "kernel" with `source_size`
equal to the raw block-device length. -/
theorem fsv_legacy_synthesis (env : FsvEnv) (plan : InstallPlan)
    (rootPath kernelPath : String) (blockCount blockSize kernelSize : Nat)
    (hfull : plan.is_full_update = false)
    (hempty : plan.partitions = [])
    (hroot : env.getPartitionDevice kLegacyPartitionNameRoot plan.source_slot =
      some rootPath)
    (hfs : env.getFilesystemSize rootPath = some (blockCount, blockSize))
    (hkernel : env.getPartitionDevice kLegacyPartitionNameKernel
      plan.source_slot = some kernelPath)
    (hks : env.fileSize kernelPath = some kernelSize) :
    ∃ plan', legacyPartitionSynthesis env VerifierMode.kComputeSourceHash plan =
        some plan' ∧
      plan'.partitions.map (fun p => (p.name, p.source_size)) =
        [(kLegacyPartitionNameRoot, blockCount * blockSize),
         (kLegacyPartitionNameKernel, kernelSize)] := by
  unfold legacyPartitionSynthesis
  rw [if_pos (by simp [hfull, hempty])]
  rw [hroot]
  try dsimp only
  rw [hfs, hkernel]
  try dsimp only
  rw [hks]
  exact ⟨_, rfl, rfl⟩

/-- Witness for C7 at a concrete environment: the synthesized plan for the
empty delta plan `planL` holds exactly the "root" partition of
`4 * 1024 = 4096` bytes and the "kernel" partition of `512` bytes. -/
theorem fsv_legacy_synthesis_witness :
    ∃ plan', legacyPartitionSynthesis envB VerifierMode.kComputeSourceHash
        planL = some plan' ∧
      plan'.partitions.map (fun p => (p.name, p.source_size)) =
        [(kLegacyPartitionNameRoot, 4 * 1024),
         (kLegacyPartitionNameKernel, 512)] :=
  fsv_legacy_synthesis envB planL "rootdev" "kerneldev" 4 1024 512
    rfl rfl rfl rfl rfl rfl

/-! ### DownloadAction theorems -/

theorem closeP2PSharingFd_delete (s : DlState) :
    closeP2PSharingFd s true =
      ({ s with p2pFdOpen := false, p2pFile := none, p2pFileId := "" },
        [DlEvent.p2pDeleteFile]) := rfl

theorem closeP2PSharingFd_keep (s : DlState) :
    closeP2PSharingFd s false =
      ({ s with p2pFdOpen := false, p2pFileId := "" }, []) := rfl

/-- Claim C2: when the applier's `Write` returns `false` during a
`ReceivedBytes` callback, the applier's error code is latched into `code_`,
the P2P file in use is closed and deleted, `TerminateProcessing` is invoked
on the action itself (closing the writer and asking the fetcher to terminate
— the `terminateTransfer` event), no completion is delivered at that point,
and the latched code is surfaced to the processor only when
`TransferTerminated` later fires. -/
theorem dl_applier_write_failure (env : DlEnv) (s : DlState) (inp : RbInput)
    (f : P2PFileState)
    (hw : s.writerPresent = true) (hko : inp.writerOk = false)
    (hcode : inp.writerCode ≠ ErrorCode.kSuccess)
    (hid : s.p2pFileId ≠ "")
    (hfd : s.p2pFdOpen = true)
    (hfile : s.p2pFile = some f)
    (htr : inp.truncateTo = none)
    (hstat : inp.statOk = true) (hseek : inp.seekOk = true)
    (hwr : inp.writeOk = true)
    (hoff : s.bytesReceived ≤ f.length) :
    (receivedBytes env s inp).1.code = inp.writerCode ∧
    (receivedBytes env s inp).1.p2pFileId = "" ∧
    (receivedBytes env s inp).1.p2pFile = none ∧
    DlEvent.p2pDeleteFile ∈ (receivedBytes env s inp).2 ∧
    DlEvent.terminateTransfer ∈ (receivedBytes env s inp).2 ∧
    (∀ c, DlEvent.actionComplete c ∉ (receivedBytes env s inp).2) ∧
    transferTerminated (receivedBytes env s inp).1 =
      [DlEvent.actionComplete inp.writerCode] := by
  have hstep : receivedBytes env s inp =
      ({ s with p2pFile := none
                p2pFileId := ""
                p2pFdOpen := false
                bytesReceived := s.bytesReceived + inp.len
                code := inp.writerCode
                writerPresent := false },
        [DlEvent.p2pWrite s.bytesReceived inp.len, DlEvent.p2pDeleteFile,
          DlEvent.writerClose, DlEvent.terminateTransfer]) := by
    have hlt : ¬ (f.length < s.bytesReceived) := by omega
    simp [receivedBytes, rbTruncate, rbWritePhase, rbFinish, writeToP2PFile,
      setupP2PSharingFd, closeP2PSharingFd, dlTerminateProcessing, Option.map,
      htr, hfile, hid, hfd, hstat, hseek, hwr, hw, hko, hlt]
  rw [hstep]
  refine ⟨rfl, rfl, rfl, by simp, by simp, by simp, ?_⟩
  unfold transferTerminated
  rw [if_pos (by simpa using hcode)]

/-- Witness for C2 at a concrete input: in the mid-transfer state `dlMid`,
an applier failure with `kDownloadOperationExecutionError` latches that code,
deletes the share file, terminates the transfer without completing, and
`TransferTerminated` then surfaces exactly that code. -/
theorem dl_applier_write_failure_witness :
    (receivedBytes envD dlMid
        { rbOk with writerOk := false
                    writerCode := ErrorCode.kDownloadOperationExecutionError }).1.code =
      ErrorCode.kDownloadOperationExecutionError ∧
    transferTerminated (receivedBytes envD dlMid
        { rbOk with writerOk := false
                    writerCode := ErrorCode.kDownloadOperationExecutionError }).1 =
      [DlEvent.actionComplete ErrorCode.kDownloadOperationExecutionError] := by
  have h := dl_applier_write_failure envD dlMid
    { rbOk with writerOk := false
                writerCode := ErrorCode.kDownloadOperationExecutionError }
    { length := 100, visible := false }
    rfl rfl (by decide) (by decide) rfl rfl rfl rfl rfl rfl (by decide)
  exact ⟨h.1, h.2.2.2.2.2.2⟩

/-- Claim C5: in `TransferComplete`, an unsuccessful transfer yields the final
completion code `kDownloadTransferError`; a successful one invokes the
applier's `VerifyPayload` and its return code becomes the final completion
code; on a verification failure a P2P file in use is deleted; the completion
carrying the final code is delivered; and the install plan is forwarded to
the output pipe exactly when the final code is `kSuccess`. -/
theorem dl_transfer_complete (s : DlState) (successful : Bool)
    (verifyCode : ErrorCode) (hasPipe : Bool) :
    (successful = false →
      (transferComplete s successful verifyCode hasPipe).2.1 =
        ErrorCode.kDownloadTransferError) ∧
    (successful = true → s.performerPresent = true →
      (transferComplete s successful verifyCode hasPipe).2.1 = verifyCode) ∧
    (successful = true → s.performerPresent = true →
      verifyCode ≠ ErrorCode.kSuccess → s.p2pFileId ≠ "" →
      DlEvent.p2pDeleteFile ∈ (transferComplete s successful verifyCode hasPipe).2.2) ∧
    (DlEvent.actionComplete (transferComplete s successful verifyCode hasPipe).2.1 ∈
      (transferComplete s successful verifyCode hasPipe).2.2) ∧
    (DlEvent.setOutput ∈ (transferComplete s successful verifyCode hasPipe).2.2 ↔
      (transferComplete s successful verifyCode hasPipe).2.1 = ErrorCode.kSuccess ∧
        hasPipe = true) := by
  refine ⟨?_, ?_, ?_, ?_, ?_⟩
  · intro hsucc
    subst hsucc
    simp only [transferComplete, closeP2PSharingFd]
    split_ifs <;> simp_all
  · intro hsucc hperf
    subst hsucc
    simp only [transferComplete, closeP2PSharingFd]
    split_ifs <;> simp_all
  · intro hsucc hperf hv hidp
    subst hsucc
    simp only [transferComplete, closeP2PSharingFd]
    split_ifs <;> simp_all
  · simp only [transferComplete, closeP2PSharingFd]
    split_ifs <;> simp_all
  · simp only [transferComplete, closeP2PSharingFd]
    split_ifs <;> simp_all

/-- Witness for C5 at concrete inputs: an unsuccessful transfer from `dlMid`
completes with `kDownloadTransferError`; a successful one with a failing
payload verification adopts the verifier's code and deletes the share
file. -/
theorem dl_transfer_complete_witness :
    (transferComplete dlMid false ErrorCode.kSuccess true).2.1 =
      ErrorCode.kDownloadTransferError ∧
    (transferComplete dlMid true ErrorCode.kPayloadHashMismatchError true).2.1 =
      ErrorCode.kPayloadHashMismatchError ∧
    DlEvent.p2pDeleteFile ∈
      (transferComplete dlMid true ErrorCode.kPayloadHashMismatchError true).2.2 := by
  refine ⟨(dl_transfer_complete dlMid false ErrorCode.kSuccess true).1 rfl,
    (dl_transfer_complete dlMid true ErrorCode.kPayloadHashMismatchError true).2.1
      rfl rfl,
    (dl_transfer_complete dlMid true ErrorCode.kPayloadHashMismatchError
      true).2.2.1 rfl rfl (by decide) (by decide)⟩

theorem receivedBytes_p2p_disabled (env : DlEnv) (s : DlState) (inp : RbInput)
    (hid : s.p2pFileId = "") :
    (receivedBytes env s inp).1.p2pFileId = "" ∧
    ∀ e ∈ (receivedBytes env s inp).2, DlEvent.isP2PFileOp e = false := by
  unfold receivedBytes rbTruncate rbWritePhase rbFinish dlTerminateProcessing
    closeP2PSharingFd
  rcases htr : inp.truncateTo with _ | t <;> rcases hf : s.p2pFile with _ | f <;>
    simp [hid, DlEvent.isP2PFileOp] <;>
    split_ifs <;> simp_all [DlEvent.isP2PFileOp]

theorem runReceivedBytes_p2p_disabled (env : DlEnv) :
    ∀ inputs (s : DlState), s.p2pFileId = "" →
      (runReceivedBytes env s inputs).1.p2pFileId = "" ∧
      ∀ e ∈ (runReceivedBytes env s inputs).2, DlEvent.isP2PFileOp e = false := by
  intro inputs
  induction inputs with
  | nil =>
    intro s h
    exact ⟨h, by simp [runReceivedBytes]⟩
  | cons inp rest ih =>
    intro s h
    have h1 := receivedBytes_p2p_disabled env s inp h
    have h2 := ih (receivedBytes env s inp).1 h1.1
    refine ⟨by simpa [runReceivedBytes] using h2.1, ?_⟩
    intro e he
    rw [runReceivedBytes] at he
    simp only [List.mem_append] at he
    rcases he with he | he
    · exact h1.2 e he
    · exact h2.2 e he

theorem transferComplete_success_code (s : DlState) (hasPipe : Bool) :
    (transferComplete s true ErrorCode.kSuccess hasPipe).2.1 =
      ErrorCode.kSuccess := by
  simp only [transferComplete, closeP2PSharingFd]
  split_ifs <;> rfl

/-- Claim C6: when a mirrored P2P write finds the share file's current length
smaller than the requested write offset, the action closes and deletes the
file and disables P2P sharing for the remainder of the transfer — the write
is not performed, no completion or termination happens, no P2P file operation
ever occurs in the rest of the run — while the download itself continues and
a later successful `TransferComplete` still finishes with `kSuccess`. -/
theorem dl_p2p_short_file_disables_sharing (env : DlEnv) (s : DlState)
    (inp : RbInput) (f : P2PFileState) (t : Nat)
    (hid : s.p2pFileId ≠ "") (hfd : s.p2pFdOpen = true)
    (hfile : s.p2pFile = some f) (htr : inp.truncateTo = some t)
    (hstat : inp.statOk = true)
    (hshort : min f.length t < s.bytesReceived)
    (hwok : inp.writerOk = true) :
    (receivedBytes env s inp).1.p2pFileId = "" ∧
    (receivedBytes env s inp).1.p2pFile = none ∧
    (receivedBytes env s inp).1.p2pFdOpen = false ∧
    DlEvent.p2pDeleteFile ∈ (receivedBytes env s inp).2 ∧
    (∀ off len, DlEvent.p2pWrite off len ∉ (receivedBytes env s inp).2) ∧
    (∀ c, DlEvent.actionComplete c ∉ (receivedBytes env s inp).2) ∧
    DlEvent.terminateTransfer ∉ (receivedBytes env s inp).2 ∧
    (∀ rest, (runReceivedBytes env (receivedBytes env s inp).1 rest).1.p2pFileId = "" ∧
      ∀ e ∈ (runReceivedBytes env (receivedBytes env s inp).1 rest).2,
        DlEvent.isP2PFileOp e = false) ∧
    (∀ hasPipe rest,
      (transferComplete (runReceivedBytes env (receivedBytes env s inp).1 rest).1
        true ErrorCode.kSuccess hasPipe).2.1 = ErrorCode.kSuccess) := by
  have h1 : (receivedBytes env s inp).1.p2pFileId = "" := by
    simp [receivedBytes, rbTruncate, rbWritePhase, rbFinish, writeToP2PFile,
      setupP2PSharingFd, closeP2PSharingFd, dlTerminateProcessing, Option.map,
      htr, hfile, hid, hfd, hstat, hshort, hwok]
    all_goals (split_ifs <;> simp_all)
  refine ⟨h1, ?_, ?_, ?_, ?_, ?_, ?_,
    fun rest => runReceivedBytes_p2p_disabled env rest (receivedBytes env s inp).1 h1,
    fun hasPipe rest => transferComplete_success_code _ _⟩ <;>
    (simp [receivedBytes, rbTruncate, rbWritePhase, rbFinish, writeToP2PFile,
       setupP2PSharingFd, closeP2PSharingFd, dlTerminateProcessing, Option.map,
       htr, hfile, hid, hfd, hstat, hshort, hwok]
     all_goals (split_ifs <;> simp_all))

/-- Witness for C6 at a concrete input: in `dlMid` (40 bytes received), the
share file externally truncated to 20 bytes is detected on the next mirrored
write; sharing is disabled and the file deleted, and a later successful
transfer still completes with `kSuccess`. -/
theorem dl_p2p_short_file_disables_sharing_witness :
    (receivedBytes envD dlMid { rbOk with truncateTo := some 20 }).1.p2pFileId =
      "" ∧
    (receivedBytes envD dlMid { rbOk with truncateTo := some 20 }).1.p2pFile =
      none ∧
    DlEvent.p2pDeleteFile ∈
      (receivedBytes envD dlMid { rbOk with truncateTo := some 20 }).2 ∧
    (transferComplete (runReceivedBytes envD
        (receivedBytes envD dlMid { rbOk with truncateTo := some 20 }).1
        [rbOk]).1 true ErrorCode.kSuccess true).2.1 = ErrorCode.kSuccess := by
  have h := dl_p2p_short_file_disables_sharing envD dlMid
    { rbOk with truncateTo := some 20 } { length := 100, visible := false } 20
    (by decide) rfl rfl rfl rfl (by decide) rfl
  exact ⟨h.1, h.2.1, h.2.2.2.1, h.2.2.2.2.2.2.2.2 true [rbOk]⟩

theorem rbTruncate_spec (inp : RbInput) (s : DlState) :
    (rbTruncate inp s).p2pFileId = s.p2pFileId ∧
    (rbTruncate inp s).p2pFdOpen = s.p2pFdOpen ∧
    (rbTruncate inp s).p2pVisible = s.p2pVisible ∧
    (rbTruncate inp s).writerPresent = s.writerPresent ∧
    (rbTruncate inp s).performerPresent = s.performerPresent ∧
    (rbTruncate inp s).bytesReceived = s.bytesReceived ∧
    ((∃ f, s.p2pFile = some f ∧ f.visible = true) →
      ∃ f, (rbTruncate inp s).p2pFile = some f ∧ f.visible = true) ∧
    (s.p2pFile = none → (rbTruncate inp s).p2pFile = none) := by
  unfold rbTruncate
  rcases inp.truncateTo with _ | t <;> rcases hf : s.p2pFile with _ | f <;>
    simp_all

theorem setupP2PSharingFd_spec (env : DlEnv) (s : DlState) :
    ((setupP2PSharingFd env s).1.p2pFdOpen = true ∨
      (setupP2PSharingFd env s).1.p2pFileId = "") ∧
    (setupP2PSharingFd env s).1.writerPresent = s.writerPresent ∧
    (setupP2PSharingFd env s).1.performerPresent = s.performerPresent ∧
    (setupP2PSharingFd env s).1.bytesReceived = s.bytesReceived ∧
    (setupP2PSharingFd env s).1.code = s.code ∧
    (∀ e ∈ (setupP2PSharingFd env s).2, DlEvent.isMakeVisible e = false) ∧
    ((∃ f, s.p2pFile = some f ∧ f.visible = true) →
      (∃ f, (setupP2PSharingFd env s).1.p2pFile = some f ∧ f.visible = true) ∨
        ((setupP2PSharingFd env s).1.p2pFile = none ∧
          (setupP2PSharingFd env s).1.p2pFileId = "")) := by
  unfold setupP2PSharingFd closeP2PSharingFd
  rcases hf : s.p2pFile with _ | f <;>
    split_ifs <;> simp_all [DlEvent.isMakeVisible]

theorem writeToP2PFile_spec_fdOpen (env : DlEnv) (inp : RbInput) (u : DlState)
    (length off : Nat) (hfd : u.p2pFdOpen = true) :
    ((writeToP2PFile env inp u length off).1.p2pFileId = "" ∨
      (writeToP2PFile env inp u length off).1.p2pFdOpen = true) ∧
    (writeToP2PFile env inp u length off).1.writerPresent = u.writerPresent ∧
    (writeToP2PFile env inp u length off).1.performerPresent =
      u.performerPresent ∧
    (writeToP2PFile env inp u length off).1.bytesReceived = u.bytesReceived ∧
    (writeToP2PFile env inp u length off).1.code = u.code ∧
    (∀ e ∈ (writeToP2PFile env inp u length off).2,
      DlEvent.isMakeVisible e = false) ∧
    (writeToP2PFile env inp u length off).1.p2pVisible = u.p2pVisible ∧
    ((∃ f, u.p2pFile = some f ∧ f.visible = true) →
      (∃ f, (writeToP2PFile env inp u length off).1.p2pFile = some f ∧
          f.visible = true) ∨
        ((writeToP2PFile env inp u length off).1.p2pFile = none ∧
          (writeToP2PFile env inp u length off).1.p2pFileId = "")) ∧
    (u.p2pFile = none →
      (writeToP2PFile env inp u length off).1.p2pFile = none ∧
      (writeToP2PFile env inp u length off).1.p2pFileId = "") := by
  unfold writeToP2PFile closeP2PSharingFd
  simp only [if_neg (show ¬ ((!u.p2pFdOpen) = true) from by simp [hfd])]
  try dsimp only
  by_cases hst : inp.statOk = true
  · rw [if_pos hst]
    rcases hf : u.p2pFile with _ | f
    · simp_all [DlEvent.isMakeVisible]
    · simp only [hf, Option.map]
      try dsimp only
      split_ifs <;> simp_all [DlEvent.isMakeVisible, hfd]
  · rw [if_neg hst]
    try dsimp only
    simp_all [DlEvent.isMakeVisible]

theorem writeToP2PFile_setup (env : DlEnv) (inp : RbInput) (s : DlState)
    (length off : Nat) (hfd : s.p2pFdOpen = false) :
    writeToP2PFile env inp s length off =
      (if (setupP2PSharingFd env s).1.p2pFdOpen = true then
        ((writeToP2PFile env inp (setupP2PSharingFd env s).1 length off).1,
          (setupP2PSharingFd env s).2 ++
            (writeToP2PFile env inp (setupP2PSharingFd env s).1 length off).2)
      else setupP2PSharingFd env s) := by
  obtain ⟨u, evs, hset⟩ : ∃ u evs, setupP2PSharingFd env s = (u, evs) :=
    ⟨_, _, rfl⟩
  rw [hset]
  try dsimp only
  unfold writeToP2PFile
  rw [hset]
  simp only [if_pos (show (!s.p2pFdOpen) = true from by simp [hfd])]
  try dsimp only
  by_cases hu : u.p2pFdOpen = true
  · simp only [if_pos hu,
      if_neg (show ¬ ((!u.p2pFdOpen) = true) from by simp [hu])]
    try dsimp only
    rcases hpf : u.p2pFile with _ | f <;> by_cases hst : inp.statOk = true <;>
      simp only [hpf, hst, Option.map, ite_true, ite_false,
        Bool.false_eq_true] <;>
      (try dsimp only) <;>
      (try split_ifs) <;> simp
  · simp only [if_neg hu,
      if_pos (show (!u.p2pFdOpen) = true from by
        revert hu
        cases u.p2pFdOpen <;> simp)]

theorem writeToP2PFile_spec (env : DlEnv) (inp : RbInput) (s : DlState)
    (length off : Nat) :
    ((writeToP2PFile env inp s length off).1.p2pFileId = "" ∨
      (writeToP2PFile env inp s length off).1.p2pFdOpen = true) ∧
    (writeToP2PFile env inp s length off).1.writerPresent = s.writerPresent ∧
    (writeToP2PFile env inp s length off).1.performerPresent =
      s.performerPresent ∧
    (writeToP2PFile env inp s length off).1.bytesReceived = s.bytesReceived ∧
    (writeToP2PFile env inp s length off).1.code = s.code ∧
    (∀ e ∈ (writeToP2PFile env inp s length off).2,
      DlEvent.isMakeVisible e = false) ∧
    (s.p2pFdOpen = true →
      (writeToP2PFile env inp s length off).1.p2pVisible = s.p2pVisible) ∧
    ((∃ f, s.p2pFile = some f ∧ f.visible = true) →
      (∃ f, (writeToP2PFile env inp s length off).1.p2pFile = some f ∧
          f.visible = true) ∨
        ((writeToP2PFile env inp s length off).1.p2pFile = none ∧
          (writeToP2PFile env inp s length off).1.p2pFileId = "")) := by
  by_cases hfd : s.p2pFdOpen = true
  · have h := writeToP2PFile_spec_fdOpen env inp s length off hfd
    exact ⟨h.1, h.2.1, h.2.2.1, h.2.2.2.1, h.2.2.2.2.1, h.2.2.2.2.2.1,
      fun _ => h.2.2.2.2.2.2.1, h.2.2.2.2.2.2.2.1⟩
  · have hfd0 : s.p2pFdOpen = false := by
      revert hfd
      cases s.p2pFdOpen <;> simp
    rw [writeToP2PFile_setup env inp s length off hfd0]
    have hsetup := setupP2PSharingFd_spec env s
    by_cases hu : (setupP2PSharingFd env s).1.p2pFdOpen = true
    · rw [if_pos hu]
      have hbody := writeToP2PFile_spec_fdOpen env inp
        (setupP2PSharingFd env s).1 length off hu
      dsimp only
      refine ⟨?_, ?_, ?_, ?_, ?_, ?_, fun hcon => absurd hcon hfd, ?_⟩
      · exact hbody.1
      · rw [hbody.2.1, hsetup.2.1]
      · rw [hbody.2.2.1, hsetup.2.2.1]
      · rw [hbody.2.2.2.1, hsetup.2.2.2.1]
      · rw [hbody.2.2.2.2.1, hsetup.2.2.2.2.1]
      · intro e he
        rw [List.mem_append] at he
        rcases he with he | he
        · exact hsetup.2.2.2.2.2.1 e he
        · exact hbody.2.2.2.2.2.1 e he
      · intro hex
        rcases hsetup.2.2.2.2.2.2 hex with h | ⟨hn, _⟩
        · exact hbody.2.2.2.2.2.2.2.1 h
        · exact Or.inr (hbody.2.2.2.2.2.2.2.2 hn)
    · rw [if_neg hu]
      have hid : (setupP2PSharingFd env s).1.p2pFileId = "" := by
        rcases hsetup.1 with h | h
        · exact absurd h hu
        · exact h
      refine ⟨Or.inl hid, hsetup.2.1, hsetup.2.2.1, hsetup.2.2.2.1,
        hsetup.2.2.2.2.1, hsetup.2.2.2.2.2.1, fun hcon => absurd hcon hfd, ?_⟩
      intro hex
      exact hsetup.2.2.2.2.2.2 hex

theorem rbWritePhase_spec (env : DlEnv) (inp : RbInput) (s : DlState) :
    ((rbWritePhase env inp s).1.p2pFileId = "" ∨
      (rbWritePhase env inp s).1.p2pFdOpen = true ∨
      ((rbWritePhase env inp s).1 = s ∧ (rbWritePhase env inp s).2 = [] ∧
        s.p2pFileId = "")) ∧
    (rbWritePhase env inp s).1.writerPresent = s.writerPresent ∧
    (rbWritePhase env inp s).1.performerPresent = s.performerPresent ∧
    (rbWritePhase env inp s).1.bytesReceived = s.bytesReceived ∧
    (rbWritePhase env inp s).1.code = s.code ∧
    (∀ e ∈ (rbWritePhase env inp s).2, DlEvent.isMakeVisible e = false) ∧
    (s.p2pFileId = "" ∨ s.p2pFdOpen = true →
      (rbWritePhase env inp s).1.p2pVisible = s.p2pVisible) ∧
    ((∃ f, s.p2pFile = some f ∧ f.visible = true) →
      (∃ f, (rbWritePhase env inp s).1.p2pFile = some f ∧ f.visible = true) ∨
        ((rbWritePhase env inp s).1.p2pFile = none ∧
          (rbWritePhase env inp s).1.p2pFileId = "")) ∧
    (s.p2pFile = none ∧ s.p2pFileId = "" →
      (rbWritePhase env inp s).1 = s ∧ (rbWritePhase env inp s).2 = []) := by
  unfold rbWritePhase
  by_cases hid : s.p2pFileId ≠ ""
  · rw [if_pos hid]
    have h := writeToP2PFile_spec env inp s inp.len s.bytesReceived
    refine ⟨?_, h.2.1, h.2.2.1, h.2.2.2.1, h.2.2.2.2.1, h.2.2.2.2.2.1, ?_,
      h.2.2.2.2.2.2.2, ?_⟩
    · rcases h.1 with h1 | h1
      · exact Or.inl h1
      · exact Or.inr (Or.inl h1)
    · intro hst
      rcases hst with hst | hst
      · exact absurd hst hid
      · exact h.2.2.2.2.2.2.1 hst
    · intro hc
      exact absurd hc.2 hid
  · rw [if_neg hid]
    have hid0 : s.p2pFileId = "" := by
      revert hid
      by_cases h : s.p2pFileId = "" <;> simp [h]
    refine ⟨Or.inr (Or.inr ⟨rfl, rfl, hid0⟩), rfl, rfl, rfl, rfl, by simp,
      fun _ => rfl, ?_, fun _ => ⟨rfl, rfl⟩⟩
    intro hex
    exact Or.inl hex

theorem rbFinish_count_le_one (inp : RbInput) (m : DlState) :
    (rbFinish inp m).2.countP DlEvent.isMakeVisible ≤ 1 := by
  unfold rbFinish dlTerminateProcessing closeP2PSharingFd
  try dsimp only
  split_ifs <;> simp [DlEvent.isMakeVisible]

theorem rbFinish_emit (inp : RbInput) (m : DlState)
    (h : 0 < (rbFinish inp m).2.countP DlEvent.isMakeVisible) :
    inp.manifestValid = true ∧ m.p2pVisible = false ∧
    (rbFinish inp m).1.p2pVisible = true ∧
    (rbFinish inp m).1.p2pFileId = m.p2pFileId ∧
    (rbFinish inp m).1.p2pFdOpen = m.p2pFdOpen := by
  revert h
  unfold rbFinish dlTerminateProcessing closeP2PSharingFd
  try dsimp only
  split_ifs with h1 h2 <;>
    simp_all [DlEvent.isMakeVisible]

theorem rbFinish_visible (inp : RbInput) (m : DlState)
    (hv : m.p2pVisible = true) :
    (rbFinish inp m).2.countP DlEvent.isMakeVisible = 0 ∧
    (rbFinish inp m).1.p2pVisible = true ∧
    ((rbFinish inp m).1.p2pFileId = "" ∨
      ((rbFinish inp m).1.p2pFileId = m.p2pFileId ∧
        (rbFinish inp m).1.p2pFdOpen = m.p2pFdOpen)) := by
  unfold rbFinish dlTerminateProcessing closeP2PSharingFd
  try dsimp only
  split_ifs with h1 h2 <;> simp_all [DlEvent.isMakeVisible]

theorem rbFinish_file_visible (inp : RbInput) (m : DlState)
    (hex : ∃ f, m.p2pFile = some f ∧ f.visible = true) :
    (∃ f, (rbFinish inp m).1.p2pFile = some f ∧ f.visible = true) ∨
      ((rbFinish inp m).1.p2pFile = none ∧ (rbFinish inp m).1.p2pFileId = "") := by
  obtain ⟨f, hf, hv⟩ := hex
  unfold rbFinish dlTerminateProcessing closeP2PSharingFd
  try dsimp only
  split_ifs with h1 h2 <;>
    simp_all [DlEvent.isMakeVisible, Option.map]

theorem rbFinish_file_none (inp : RbInput) (m : DlState)
    (h : m.p2pFile = none ∧ m.p2pFileId = "") :
    (rbFinish inp m).1.p2pFile = none ∧ (rbFinish inp m).1.p2pFileId = "" := by
  unfold rbFinish dlTerminateProcessing closeP2PSharingFd
  try dsimp only
  split_ifs with h1 h2 <;> simp_all [Option.map]

theorem rbFinish_promotes (inp : RbInput) (m : DlState)
    (hwok : inp.writerOk = true) (hv : m.p2pVisible = false)
    (hperf : m.performerPresent = true) (hman : inp.manifestValid = true) :
    (rbFinish inp m).2 = [DlEvent.p2pMakeVisible m.p2pFileId] := by
  unfold rbFinish
  rw [if_neg (by simp [hwok]), if_pos (by simp [hv, hperf, hman])]

/-- The state and the events of `ReceivedBytes` as an explicit composition of
its phases. -/
theorem receivedBytes_def (env : DlEnv) (s : DlState) (inp : RbInput) :
    receivedBytes env s inp =
      ((rbFinish inp { (rbWritePhase env inp (rbTruncate inp s)).1 with
          bytesReceived :=
            (rbWritePhase env inp (rbTruncate inp s)).1.bytesReceived +
              inp.len }).1,
        (rbWritePhase env inp (rbTruncate inp s)).2 ++
          (rbFinish inp { (rbWritePhase env inp (rbTruncate inp s)).1 with
              bytesReceived :=
                (rbWritePhase env inp (rbTruncate inp s)).1.bytesReceived +
                  inp.len }).2) := rfl

theorem receivedBytes_file_visibility (env : DlEnv) (s : DlState)
    (inp : RbInput)
    (hvs : (∃ f, s.p2pFile = some f ∧ f.visible = true) ∨
      (s.p2pFile = none ∧ s.p2pFileId = "")) :
    (∃ f, (receivedBytes env s inp).1.p2pFile = some f ∧ f.visible = true) ∨
      ((receivedBytes env s inp).1.p2pFile = none ∧
        (receivedBytes env s inp).1.p2pFileId = "") := by
  rw [receivedBytes_def]
  try dsimp only
  have htr := rbTruncate_spec inp s
  have hwp := rbWritePhase_spec env inp (rbTruncate inp s)
  rcases hvs with hex | ⟨hnone, hid⟩
  · have hex1 := htr.2.2.2.2.2.2.1 hex
    rcases hwp.2.2.2.2.2.2.2.1 hex1 with hex2 | ⟨hn2, hid2⟩
    · obtain ⟨f, hf, hv⟩ := hex2
      exact rbFinish_file_visible inp _ ⟨f, by simpa using hf, hv⟩
    · exact Or.inr (rbFinish_file_none inp _ ⟨by simpa using hn2, by simpa using hid2⟩)
  · have hid1 : (rbTruncate inp s).p2pFileId = "" := by rw [htr.1]; exact hid
    have hnone1 := htr.2.2.2.2.2.2.2 hnone
    have hwid := hwp.2.2.2.2.2.2.2.2 ⟨hnone1, hid1⟩
    refine Or.inr (rbFinish_file_none inp _ ⟨?_, ?_⟩)
    · simpa [hwid.1] using hnone1
    · simpa [hwid.1] using hid1

theorem receivedBytes_stable_visible (env : DlEnv) (s : DlState)
    (inp : RbInput)
    (hst : s.p2pFileId = "" ∨ s.p2pFdOpen = true) (hv : s.p2pVisible = true) :
    ((receivedBytes env s inp).1.p2pFileId = "" ∨
      (receivedBytes env s inp).1.p2pFdOpen = true) ∧
    (receivedBytes env s inp).1.p2pVisible = true ∧
    (receivedBytes env s inp).2.countP DlEvent.isMakeVisible = 0 := by
  rw [receivedBytes_def]
  try dsimp only
  have htr := rbTruncate_spec inp s
  have hwp := rbWritePhase_spec env inp (rbTruncate inp s)
  have hst1 : (rbTruncate inp s).p2pFileId = "" ∨
      (rbTruncate inp s).p2pFdOpen = true := by
    rw [htr.1, htr.2.1]
    exact hst
  have hmv : ({ (rbWritePhase env inp (rbTruncate inp s)).1 with
      bytesReceived :=
        (rbWritePhase env inp (rbTruncate inp s)).1.bytesReceived +
          inp.len } : DlState).p2pVisible = true := by
    have := hwp.2.2.2.2.2.2.1 hst1
    simpa [this, htr.2.2.1] using hv
  have hmst : ({ (rbWritePhase env inp (rbTruncate inp s)).1 with
      bytesReceived :=
        (rbWritePhase env inp (rbTruncate inp s)).1.bytesReceived +
          inp.len } : DlState).p2pFileId = "" ∨
      ({ (rbWritePhase env inp (rbTruncate inp s)).1 with
        bytesReceived :=
          (rbWritePhase env inp (rbTruncate inp s)).1.bytesReceived +
            inp.len } : DlState).p2pFdOpen = true := by
    rcases hwp.1 with h | h | ⟨h1, _, h3⟩
    · exact Or.inl (by simpa using h)
    · exact Or.inr (by simpa using h)
    · exact Or.inl (by simp [h1, h3])
  have hfin := rbFinish_visible inp _ hmv
  refine ⟨?_, hfin.2.1, ?_⟩
  · rcases hfin.2.2 with h | ⟨h1, h2⟩
    · exact Or.inl h
    · rcases hmst with h | h
      · exact Or.inl (by rw [h1]; exact h)
      · exact Or.inr (by rw [h2]; exact h)
  · rw [List.countP_append, hfin.1]
    have : (rbWritePhase env inp (rbTruncate inp s)).2.countP
        DlEvent.isMakeVisible = 0 := by
      rw [List.countP_eq_zero]
      intro e he
      simp [hwp.2.2.2.2.2.1 e he]
    rw [this]

theorem receivedBytes_emit (env : DlEnv) (s : DlState) (inp : RbInput) :
    (receivedBytes env s inp).2.countP DlEvent.isMakeVisible ≤ 1 ∧
    (0 < (receivedBytes env s inp).2.countP DlEvent.isMakeVisible →
      ((receivedBytes env s inp).1.p2pFileId = "" ∨
        (receivedBytes env s inp).1.p2pFdOpen = true) ∧
      (receivedBytes env s inp).1.p2pVisible = true ∧
      inp.manifestValid = true) := by
  rw [receivedBytes_def]
  try dsimp only
  have htr := rbTruncate_spec inp s
  have hwp := rbWritePhase_spec env inp (rbTruncate inp s)
  have hw0 : (rbWritePhase env inp (rbTruncate inp s)).2.countP
      DlEvent.isMakeVisible = 0 := by
    rw [List.countP_eq_zero]
    intro e he
    simp [hwp.2.2.2.2.2.1 e he]
  have hmst : ({ (rbWritePhase env inp (rbTruncate inp s)).1 with
      bytesReceived :=
        (rbWritePhase env inp (rbTruncate inp s)).1.bytesReceived +
          inp.len } : DlState).p2pFileId = "" ∨
      ({ (rbWritePhase env inp (rbTruncate inp s)).1 with
        bytesReceived :=
          (rbWritePhase env inp (rbTruncate inp s)).1.bytesReceived +
            inp.len } : DlState).p2pFdOpen = true := by
    rcases hwp.1 with h | h | ⟨h1, _, h3⟩
    · exact Or.inl (by simpa using h)
    · exact Or.inr (by simpa using h)
    · exact Or.inl (by simp [h1, h3])
  constructor
  · rw [List.countP_append, hw0]
    simpa using rbFinish_count_le_one inp _
  · intro hpos
    rw [List.countP_append, hw0] at hpos
    simp only [Nat.zero_add] at hpos
    have hem := rbFinish_emit inp _ hpos
    refine ⟨?_, hem.2.2.1, hem.1⟩
    rcases hmst with h | h
    · exact Or.inl (by rw [hem.2.2.2.1]; exact h)
    · exact Or.inr (by rw [hem.2.2.2.2]; exact h)

theorem receivedBytes_promotes (env : DlEnv) (s : DlState) (inp : RbInput)
    (hv : s.p2pVisible = false) (hperf : s.performerPresent = true)
    (hwok : inp.writerOk = true) (hman : inp.manifestValid = true)
    (hst : s.p2pFileId = "" ∨ s.p2pFdOpen = true) :
    0 < (receivedBytes env s inp).2.countP DlEvent.isMakeVisible := by
  rw [receivedBytes_def]
  try dsimp only
  have htr := rbTruncate_spec inp s
  have hwp := rbWritePhase_spec env inp (rbTruncate inp s)
  have hst1 : (rbTruncate inp s).p2pFileId = "" ∨
      (rbTruncate inp s).p2pFdOpen = true := by
    rw [htr.1, htr.2.1]
    exact hst
  have hmv := hwp.2.2.2.2.2.2.1 hst1
  have hpr := rbFinish_promotes inp
    { (rbWritePhase env inp (rbTruncate inp s)).1 with
      bytesReceived :=
        (rbWritePhase env inp (rbTruncate inp s)).1.bytesReceived + inp.len }
    hwok (by simpa [hmv, htr.2.2.1] using hv)
    (by simpa [hwp.2.2.1, htr.2.2.2.2.1] using hperf) hman
  rw [List.countP_append, hpr]
  simp [DlEvent.isMakeVisible]

theorem runReceivedBytes_stable_visible (env : DlEnv) :
    ∀ (inputs : List RbInput) (s : DlState),
      (s.p2pFileId = "" ∨ s.p2pFdOpen = true) → s.p2pVisible = true →
      ((runReceivedBytes env s inputs).1.p2pFileId = "" ∨
        (runReceivedBytes env s inputs).1.p2pFdOpen = true) ∧
      (runReceivedBytes env s inputs).1.p2pVisible = true ∧
      (runReceivedBytes env s inputs).2.countP DlEvent.isMakeVisible = 0 := by
  intro inputs
  induction inputs with
  | nil =>
    intro s hst hv
    exact ⟨hst, hv, by simp [runReceivedBytes]⟩
  | cons inp rest ih =>
    intro s hst hv
    have h1 := receivedBytes_stable_visible env s inp hst hv
    have h2 := ih (receivedBytes env s inp).1 h1.1 h1.2.1
    rw [runReceivedBytes]
    dsimp only
    refine ⟨h2.1, h2.2.1, ?_⟩
    rw [List.countP_append, h1.2.2, h2.2.2]

/-- Claim C8: throughout a `DownloadAction` run, the P2P share file's
visibility never transitions from visible back to hidden — once the file is
visible, after any further `ReceivedBytes` callbacks it is either gone or
still visible; the file is promoted (`FileMakeVisible`) at most once per run;
a promotion happens only during a callback in which the applier reports the
manifest valid, and the in-memory visibility flag then stays set; and the
promotion is not skipped: the first callback that finds the flag clear with
the performer present, the applier accepting the bytes and the manifest
valid does promote. -/
theorem dl_p2p_visibility_monotone (env : DlEnv) :
    (∀ (s : DlState) (inputs : List RbInput) (f : P2PFileState),
      s.p2pFile = some f → f.visible = true →
      (∃ f', (runReceivedBytes env s inputs).1.p2pFile = some f' ∧
          f'.visible = true) ∨
        (runReceivedBytes env s inputs).1.p2pFile = none) ∧
    (∀ (s : DlState) (inputs : List RbInput),
      (runReceivedBytes env s inputs).2.countP DlEvent.isMakeVisible ≤ 1) ∧
    (∀ (s : DlState) (inp : RbInput),
      0 < (receivedBytes env s inp).2.countP DlEvent.isMakeVisible →
      inp.manifestValid = true ∧
      (receivedBytes env s inp).1.p2pVisible = true) ∧
    (∀ (s : DlState) (inp : RbInput),
      s.p2pVisible = false → s.performerPresent = true →
      inp.writerOk = true → inp.manifestValid = true →
      (s.p2pFileId = "" ∨ s.p2pFdOpen = true) →
      0 < (receivedBytes env s inp).2.countP DlEvent.isMakeVisible) := by
  have hmono : ∀ (inputs : List RbInput) (s : DlState),
      ((∃ f, s.p2pFile = some f ∧ f.visible = true) ∨
        (s.p2pFile = none ∧ s.p2pFileId = "")) →
      (∃ f', (runReceivedBytes env s inputs).1.p2pFile = some f' ∧
          f'.visible = true) ∨
        ((runReceivedBytes env s inputs).1.p2pFile = none ∧
          (runReceivedBytes env s inputs).1.p2pFileId = "") := by
    intro inputs
    induction inputs with
    | nil => intro s h; simpa [runReceivedBytes] using h
    | cons inp rest ih =>
      intro s h
      have h1 := receivedBytes_file_visibility env s inp h
      have h2 := ih (receivedBytes env s inp).1 h1
      rw [runReceivedBytes]
      exact h2
  have hcount : ∀ (inputs : List RbInput) (s : DlState),
      (runReceivedBytes env s inputs).2.countP DlEvent.isMakeVisible ≤ 1 := by
    intro inputs
    induction inputs with
    | nil => intro s; simp [runReceivedBytes]
    | cons inp rest ih =>
      intro s
      rw [runReceivedBytes]
      dsimp only
      rw [List.countP_append]
      have hstep := receivedBytes_emit env s inp
      by_cases hpos : 0 <
          (receivedBytes env s inp).2.countP DlEvent.isMakeVisible
      · have hp := hstep.2 hpos
        have hrest := runReceivedBytes_stable_visible env rest
          (receivedBytes env s inp).1 hp.1 hp.2.1
        rw [hrest.2.2]
        omega
      · have h0 : (receivedBytes env s inp).2.countP DlEvent.isMakeVisible = 0 := by
          omega
        rw [h0]
        simpa using ih (receivedBytes env s inp).1
  refine ⟨?_, fun s inputs => hcount inputs s, ?_, ?_⟩
  · intro s inputs f hf hv
    rcases hmono inputs s (Or.inl ⟨f, hf, hv⟩) with h | h
    · exact Or.inl h
    · exact Or.inr h.1
  · intro s inp hpos
    have h := (receivedBytes_emit env s inp).2 hpos
    exact ⟨h.2.2, h.2.1⟩
  · intro s inp hv hperf hwok hman hst
    exact receivedBytes_promotes env s inp hv hperf hwok hman hst

/-- Witness for C8 at concrete inputs: from the hidden mid-transfer state
`dlMid`, a run in which the manifest becomes valid promotes the file exactly
once (and no more than once), the promoting callback has a valid manifest,
and a callback meeting all the promotion conditions does promote. -/
theorem dl_p2p_visibility_monotone_witness :
    (runReceivedBytes envD dlMid
      [{ rbOk with manifestValid := true }, rbOk]).2.countP
        DlEvent.isMakeVisible ≤ 1 ∧
    0 < (receivedBytes envD dlMid { rbOk with manifestValid := true }).2.countP
        DlEvent.isMakeVisible ∧
    ((∃ f', (runReceivedBytes envD
        { dlMid with p2pFile := some { length := 100, visible := true } }
        [rbOk, rbOk]).1.p2pFile = some f' ∧ f'.visible = true) ∨
      (runReceivedBytes envD
        { dlMid with p2pFile := some { length := 100, visible := true } }
        [rbOk, rbOk]).1.p2pFile = none) := by
  have h := dl_p2p_visibility_monotone envD
  refine ⟨h.2.1 dlMid _, ?_, ?_⟩
  · exact h.2.2.2 dlMid { rbOk with manifestValid := true } rfl rfl rfl rfl
      (Or.inr rfl)
  · exact h.1 { dlMid with p2pFile := some { length := 100, visible := true } }
      [rbOk, rbOk] { length := 100, visible := true } rfl rfl

end UpdateEngine
